import Mathlib

/-!
# Verification of the Crawl4AI MCP server's upstream invocation bridge

A shallow embedding of the bridge layer of the `crawl4ai-mcp-server`
repository: the parameter transcoder (`toSnakeCase` / `transformParams`), the
error classifiers (`transformError` in `src/utils/error-utils.ts`, the enhanced
mode-aware snapshot, and the axios response interceptor of the retrying
adapter), the retry/cache request executor (`executeRequest`), the content
normalizer (`formatContent` in `src/utils/format-utils.ts`), and the adapter
operations (`scrape`, `deepResearch`, ...).

JavaScript values are modelled by the inductive `JVal` (JSON values plus
`undefined`); numbers are integers, since no verified property depends on
float behaviour.  Fallible code paths (JS `throw`) are modelled with `Except`.
-/

namespace Crawl4AI

/-- A JavaScript value as it flows through the bridge: a JSON value or
`undefined`.  Objects keep insertion order, as `Object.entries` does. -/
inductive JVal where
  | null
  | undef
  | bool (b : Bool)
  | num (n : Int)
  | str (s : String)
  | arr (items : List JVal)
  | obj (fields : List (String × JVal))
deriving Repr, BEq, Inhabited

/-- JavaScript truthiness of a value. -/
def truthy : JVal → Bool
  | .null => false
  | .undef => false
  | .bool b => b
  | .num n => n != 0
  | .str s => s != ""
  | .arr _ => true
  | .obj _ => true

/-- Property access `v[k]`: the bound value on objects that carry the key,
`undefined` otherwise (also on primitives and arrays, which auto-box). -/
def getField : JVal → String → JVal
  | .obj fields, k =>
    match fields.lookup k with
    | some v => v
    | none => .undef
  | _, _ => (.undef)

/-- The JS `in` operator restricted to how the bridge uses it: key presence on
an object, `false` on arrays, and a `TypeError` (modelled as `Except.error`) on
primitives. -/
def hasKey : JVal → String → Except Unit Bool
  | .obj fields, k => .ok (fields.any fun p => p.1 = k)
  | .arr _, _ => .ok false
  | _, _ => .error ()

/-- In `Array.prototype.toString`, `null` and `undefined` elements render as
the empty string. -/
def jsBlankElem : JVal → Bool
  | .null => true
  | .undef => true
  | _ => false

mutual

/-- `String(v)` / template-literal coercion.  Arrays render as their elements
joined with commas, with `null`/`undefined` elements rendering empty; plain
objects render as `"[object Object]"`. -/
def jsString : JVal → String
  | .null => "null"
  | .undef => "undefined"
  | .bool b => if b then "true" else "false"
  | .num n => toString n
  | .str s => s
  | .obj _ => "[object Object]"
  | .arr items => String.intercalate "," (jsStringItems items)

/-- The element renderings of `Array.prototype.toString`. -/
def jsStringItems : List JVal → List String
  | [] => []
  | v :: rest => (if jsBlankElem v then "" else jsString v) :: jsStringItems rest

end

/-- One hexadecimal digit (lowercase), for `\u00XX` escapes. -/
def hexDigit (n : Nat) : Char :=
  if n < 10 then Char.ofNat ('0'.toNat + n) else Char.ofNat ('a'.toNat + n - 10)

/-- Four-digit hexadecimal rendering of a code point, for `\uXXXX` escapes. -/
def hex4 (n : Nat) : String :=
  ⟨[hexDigit (n / 4096 % 16), hexDigit (n / 256 % 16),
    hexDigit (n / 16 % 16), hexDigit (n % 16)]⟩

/-- `JSON.stringify` escaping of one character inside a string literal. -/
def jsonEscapeChar (c : Char) : String :=
  if c = '"' then "\\\""
  else if c = '\\' then "\\\\"
  else if c = '\n' then "\\n"
  else if c = '\r' then "\\r"
  else if c = '\t' then "\\t"
  else if c.toNat = 8 then "\\b"
  else if c.toNat = 12 then "\\f"
  else if c.toNat < 32 then "\\u" ++ hex4 c.toNat
  else String.singleton c

/-- A JSON string literal, as `JSON.stringify` renders it. -/
def jsonQuote (s : String) : String :=
  "\"" ++ String.join (s.data.map jsonEscapeChar) ++ "\""

/-- `value === undefined`. -/
def isUndef : JVal → Bool
  | .undef => true
  | _ => false

mutual

/-- The rendering of a defined value inside `JSON.stringify(v)` (compact form,
no spacing): `undefined` appears only as an array element, where JSON renders
it as `null`; object fields bound to `undefined` are dropped. -/
def jsonRender : JVal → String
  | .null => "null"
  | .undef => "null"
  | .bool b => if b then "true" else "false"
  | .num n => toString n
  | .str s => jsonQuote s
  | .arr items => "[" ++ String.intercalate "," (jsonRenderItems items) ++ "]"
  | .obj fields => "\x7b" ++ String.intercalate "," (jsonRenderFields fields) ++ "\x7d"

/-- Renderings of the elements of a JSON array. -/
def jsonRenderItems : List JVal → List String
  | [] => []
  | v :: rest => jsonRender v :: jsonRenderItems rest

/-- Renderings of the defined fields of a JSON object (`undefined` dropped). -/
def jsonRenderFields : List (String × JVal) → List String
  | [] => []
  | (k, v) :: rest =>
    if isUndef v then jsonRenderFields rest
    else (jsonQuote k ++ ":" ++ jsonRender v) :: jsonRenderFields rest

end

/-- `JSON.stringify(v)`: `undefined` at top level yields no string at all. -/
def jsonStringify : JVal → Option String
  | .undef => none
  | v => some (jsonRender v)

/-- `n` spaces, for `JSON.stringify` pretty indentation. -/
def spacesOf (n : Nat) : String := ⟨List.replicate n ' '⟩

mutual

/-- The rendering of a defined value inside `JSON.stringify(v, null, 2)`:
two-space indentation, with `i` the indentation level of the children. -/
def jsonRenderPretty : Nat → JVal → String
  | _, .null => "null"
  | _, .undef => "null"
  | _, .bool b => if b then "true" else "false"
  | _, .num n => toString n
  | _, .str s => jsonQuote s
  | i, .arr items =>
    if items.isEmpty then "[]"
    else
      "[\n" ++ String.intercalate ",\n" (jsonPrettyItems (i + 2) items) ++
        "\n" ++ spacesOf i ++ "]"
  | i, .obj fields =>
    let defined := jsonPrettyFields (i + 2) fields
    if defined.isEmpty then "{}"
    else
      "\x7b\n" ++ String.intercalate ",\n" defined ++ "\n" ++ spacesOf i ++ "\x7d"

/-- Pretty renderings of the elements of a JSON array, at indentation `i`. -/
def jsonPrettyItems : Nat → List JVal → List String
  | _, [] => []
  | i, v :: rest => (spacesOf i ++ jsonRenderPretty i v) :: jsonPrettyItems i rest

/-- Pretty renderings of the defined fields of a JSON object. -/
def jsonPrettyFields : Nat → List (String × JVal) → List String
  | _, [] => []
  | i, (k, v) :: rest =>
    if isUndef v then jsonPrettyFields i rest
    else (spacesOf i ++ jsonQuote k ++ ": " ++ jsonRenderPretty i v) ::
      jsonPrettyFields i rest

end

/-- `JSON.stringify(v, null, 2)` (used by the normalizer's JSON fallback). -/
def jsonStringifyPretty : JVal → Option String
  | .undef => none
  | v => some (jsonRenderPretty 0 v)

/-- `a || b` on JS values: `a` when truthy, otherwise `b`. -/
def jsOr (a b : JVal) : JVal := if truthy a then a else b

/-- Optional chaining `v?.k`: `undefined` when `v` is nullish. -/
def optChain (v : JVal) (k : String) : JVal :=
  match v with
  | .null => .undef
  | .undef => .undef
  | _ => getField v k

/-- JS `String.prototype.includes`. -/
def strContains (s sub : String) : Bool :=
  (List.range (s.length + 1)).any fun i => sub.data.isPrefixOf (s.data.drop i)

/-- A runtime failure value, carrying exactly the fields the error classifiers
inspect: the `instanceof Error` verdict with `.message`/`.stack`, the axios
transport fields (`.isAxiosError`, `.response` as status plus body,
`.request` with its `String(...)` rendering, `.code`), and the `String(error)`
rendering used for non-Error values. -/
structure JSErr where
  isError : Bool := false
  message : String := ""
  stack : Option String := none
  isAxiosError : Bool := false
  response : Option (Int × JVal) := none
  request : Option String := none
  code : JVal := .undef
  strVal : String := ""
deriving Repr, Inhabited

namespace ErrorUtils

/-- `ErrorType` of `src/utils/error-utils.ts`. -/
inductive ErrorType where
  | VALIDATION
  | NETWORK
  | API
  | TIMEOUT
  | AUTH
  | UNKNOWN
deriving Repr, BEq, DecidableEq, Inhabited

/-- `FormattedError` of `src/utils/error-utils.ts`. -/
structure FormattedError where
  message : String
  type : ErrorType
  status : Option Int := none
  details : Option String := none
deriving Repr, BEq, DecidableEq, Inhabited

/-- The `context ? context + ": " : ""` prelude used by `transformError`. -/
def ctxPart (context : String) : String :=
  if context ≠ "" then context ++ ": " else ""

/-- `transformError` of `src/utils/error-utils.ts`: Error instances are
classified first by message contents (timeout/network → TIMEOUT, otherwise
UNKNOWN, both with the stack as details); then values carrying an HTTP
response are classified by status (401/403 → AUTH, 400/422 → VALIDATION,
anything else → API) with the serialized body as details; then a sent request
without response → NETWORK; everything else → UNKNOWN. -/
def transformError (error : JSErr) (context : String) : FormattedError :=
  if error.isError then
    if strContains error.message "timeout" || strContains error.message "network" then
      { message := ctxPart context ++ error.message
        type := .TIMEOUT
        details := error.stack }
    else
      { message := ctxPart context ++ error.message
        type := .UNKNOWN
        details := error.stack }
  else
    match error.response with
    | some (status, data) =>
      let type : ErrorType :=
        if status = 401 ∨ status = 403 then .AUTH
        else if status = 400 ∨ status = 422 then .VALIDATION
        else .API
      { message := "API error (" ++ toString status ++ "): " ++
          jsString (jsOr (optChain data "error")
            (jsOr (optChain data "message") (.str error.message)))
        type
        status := some status
        details := jsonStringify data }
    | none =>
      match error.request with
      | some req =>
        { message := "Network error: No response received"
          type := .NETWORK
          details := some req }
      | none =>
        { message := "Unknown error: " ++ error.strVal
          type := .UNKNOWN }

end ErrorUtils

namespace ErrorUtilsEnhanced

/-- `ErrorType` of the enhanced error-utils snapshot (the variant stored in
`src/types/format-utils.ts`), which extends the taxonomy with rate-limit,
server, and client kinds. -/
inductive ErrorType where
  | VALIDATION
  | NETWORK
  | API
  | TIMEOUT
  | AUTH
  | RATE_LIMIT
  | SERVER
  | CLIENT
  | UNKNOWN
deriving Repr, BEq, DecidableEq, Inhabited

/-- `FormattedError` of the enhanced snapshot: adds `retryable` and
`errorCode` (the latter assigned from a loosely-typed `||` chain, hence a
`JVal`). -/
structure FormattedError where
  message : String
  type : ErrorType
  status : Option Int := none
  details : Option String := none
  retryable : Option Bool := none
  errorCode : JVal := .undef
deriving Repr, Inhabited

/-- `transformError` of the enhanced snapshot.  The `prod` flag stands for
`process.env.NODE_ENV === 'production'`, which the source reads at each
branch; it is the only environment access of the function, so it is passed
as an argument. -/
def transformError (prod : Bool) (error : JSErr) (context : String) : FormattedError :=
  let ctxBit := if context ≠ "" then context ++ ": " else ""
  if error.isError then
    let safeDetails := if prod then some "Error details omitted in production" else error.stack
    if strContains error.message "timeout" then
      { message := ctxBit ++ "Request timed out. The operation took too long to complete."
        type := .TIMEOUT
        details := safeDetails
        retryable := some true }
    else if strContains error.message "network" || strContains error.message "connection" then
      { message := ctxBit ++ "Network error: Connection failed or interrupted."
        type := .NETWORK
        details := safeDetails
        retryable := some true }
    else
      { message := ctxBit ++ error.message
        type := .UNKNOWN
        details := safeDetails }
  else if error.isAxiosError then
    match error.response with
    | some (status, data) =>
      let errorMessage :=
        jsOr (optChain data "error") (jsOr (optChain data "message")
          (jsOr (optChain data "errorMessage") (jsOr (optChain data "error_message")
            (.str error.message))))
      let errorCode :=
        jsOr (optChain data "code") (jsOr (optChain data "errorCode")
          (jsOr (optChain data "error_code") (jsOr error.code (.str (toString status)))))
      let typeRetry : ErrorType × Bool :=
        if status = 400 ∨ status = 422 then (.VALIDATION, false)
        else if status = 401 ∨ status = 403 then (.AUTH, false)
        else if status = 429 then (.RATE_LIMIT, true)
        else if status ≥ 500 then (.SERVER, true)
        else if status ≥ 400 ∧ status < 500 then (.CLIENT, false)
        else (.API, false)
      let safeDetails :=
        if prod then some ("Status code: " ++ toString status) else jsonStringify data
      { message := ctxBit ++ "API error (" ++ toString status ++ "): " ++ jsString errorMessage
        type := typeRetry.1
        status := some status
        details := safeDetails
        retryable := some typeRetry.2
        errorCode := errorCode }
    | none =>
      match error.request with
      | some req =>
        { message := ctxBit ++ "Network error: Request sent but no response received."
          type := .NETWORK
          details := if prod then some "Request details omitted in production" else some req
          retryable := some true }
      | none =>
        { message := ctxBit ++ "Request error: " ++ error.message
          type := .CLIENT
          details := if prod then some "Stack trace omitted in production" else error.stack
          retryable := some false }
  else
    { message := ctxBit ++ "Unknown error: " ++ error.strVal
      type := .UNKNOWN
      retryable := some false }

/-- The spec's production-mode `details` contract, stated from its words: a
fixed redaction string or a minimal status-only string, a function of the
failure's transport shape and status alone — visibly never of its raw body,
stack, or request payload.  Compared against `transformError` with
`prod = true`. -/
def specProdDetails (e : JSErr) : Option String :=
  if e.isError then some "Error details omitted in production"
  else if e.isAxiosError then
    match e.response with
    | some (status, _) => some ("Status code: " ++ toString status)
    | none =>
      match e.request with
      | some _ => some "Request details omitted in production"
      | none => some "Stack trace omitted in production"
  else none

/-- The spec's development-mode `details` contract: the full raw payload —
the stack trace, the serialized response body, or the request rendering.
Compared against `transformError` with `prod = false`. -/
def specDevDetails (e : JSErr) : Option String :=
  if e.isError then e.stack
  else if e.isAxiosError then
    match e.response with
    | some (_, data) => jsonStringify data
    | none =>
      match e.request with
      | some r => some r
      | none => e.stack
  else none

end ErrorUtilsEnhanced

namespace AdapterMain

/-- `toSnakeCase` (src/adapters/crawl4ai-adapter.ts):
`str.replace(/[A-Z]/g, letter => '_' + letter.toLowerCase())`, as its action
on one character. -/
def snakeChar (c : Char) : List Char :=
  if 'A' ≤ c ∧ c ≤ 'Z' then ['_', c.toLower] else [c]

/-- `toSnakeCase` on a whole key. -/
def toSnakeCase (s : String) : String := ⟨s.data.flatMap snakeChar⟩

/-- JS object assignment `result[k] = v`: updates in place when the key is
already present (keeping its position), otherwise appends. -/
def setKey : List (String × JVal) → String → JVal → List (String × JVal)
  | [], k, v => [(k, v)]
  | (k', v') :: rest, k, v =>
    if k' = k then (k, v) :: rest else (k', v') :: setKey rest k v

/-- `Object.entries` of an array: index-keyed pairs (`"0"`, `"1"`, ...). -/
def indexPairs : Nat → List JVal → List (String × JVal)
  | _, [] => []
  | i, v :: rest => (toString i, v) :: indexPairs (i + 1) rest

mutual

/-- Termination measure for the transcoder: weight of a value. -/
def jweight : JVal → Nat
  | .arr items => 1 + itemsWeight items
  | .obj fields => 1 + entriesWeight fields
  | _ => 1

/-- Termination measure: weight of an array's elements. -/
def itemsWeight : List JVal → Nat
  | [] => 0
  | v :: rest => 1 + jweight v + itemsWeight rest

/-- Termination measure: weight of an object's entries. -/
def entriesWeight : List (String × JVal) → Nat
  | [] => 0
  | p :: rest => 1 + jweight p.2 + entriesWeight rest

end

mutual

/-- The entry loop of `transformParams`
(`for (const [key, value] of Object.entries(params))`): `undefined` values
are skipped, every other value is stored under the snake_case key. -/
def transformEntries (result : List (String × JVal)) :
    List (String × JVal) → List (String × JVal)
  | [] => result
  | (k, v) :: rest =>
    if isUndef v then transformEntries result rest
    else transformEntries (setKey result (toSnakeCase k) (transformValue v)) rest
termination_by l => entriesWeight l
decreasing_by
  all_goals simp [jweight, itemsWeight, entriesWeight]
  all_goals omega

/-- The per-value branch of `transformParams`:
`value !== null && typeof value === 'object'` descends into arrays and
objects; every other value is copied as is. -/
def transformValue : JVal → JVal
  | .arr items => .arr (transformItems items)
  | .obj fields => .obj (transformEntries [] fields)
  | v => v
termination_by v => jweight v
decreasing_by
  all_goals simp [jweight, itemsWeight, entriesWeight]

/-- `value.map(item => ...)` over an array-valued entry. -/
def transformItems : List JVal → List JVal
  | [] => []
  | v :: rest => transformItem v :: transformItems rest
termination_by l => itemsWeight l
decreasing_by
  all_goals simp [jweight, itemsWeight, entriesWeight]
  all_goals omega

/-- One array element:
`typeof item === 'object' && item !== null ? this.transformParams(item) : item`.
`transformParams` iterates `Object.entries` and returns a fresh plain object,
so an array nested directly inside an array comes back as an index-keyed
object. -/
def transformItem : JVal → JVal
  | .obj fields => .obj (transformEntries [] fields)
  | .arr items => .obj (transformEntries [] (indexPairs 0 items))
  | v => v
termination_by v => jweight v
decreasing_by
  all_goals
    have hw : ∀ (l : List JVal) (n : Nat), entriesWeight (indexPairs n l) = itemsWeight l := by
      intro l
      induction l with
      | nil => intro n; simp [indexPairs, entriesWeight, itemsWeight]
      | cons x rest ih => intro n; simp [indexPairs, entriesWeight, itemsWeight, ih]
    simp [jweight, itemsWeight, entriesWeight, hw]

end

/-- `transformParams` on a parameter bag (a JS object given by its entries). -/
def transformParams (params : List (String × JVal)) : List (String × JVal) :=
  transformEntries [] params

/-- A key without underscores, as a camelCase key is. -/
def plainKey (s : String) : Bool := s.data.all fun c => c ≠ '_'

/-- A key without uppercase ASCII letters (a `toSnakeCase` fixpoint). -/
def noUpperKey (s : String) : Bool := s.data.all fun c => ¬('A' ≤ c ∧ c ≤ 'Z')

/-- The nesting shape of a value: object keys erased, leaves kept, so equal
shapes mean the same nesting, the same array lengths, the same number of
object entries, and identical leaf values. -/
inductive JShape where
  | leaf (v : JVal)
  | arrS (items : List JShape)
  | objS (fields : List JShape)
deriving Repr, Inhabited

mutual

/-- The shape of a value. -/
def shapeOf : JVal → JShape
  | .arr items => .arrS (shapeItems items)
  | .obj fields => .objS (shapeFields fields)
  | v => .leaf v

/-- The shapes of an array's elements. -/
def shapeItems : List JVal → List JShape
  | [] => []
  | v :: rest => shapeOf v :: shapeItems rest

/-- The shapes of an object's field values. -/
def shapeFields : List (String × JVal) → List JShape
  | [] => []
  | p :: rest => shapeOf p.2 :: shapeFields rest

end

mutual

/-- A value within the scope of the shape-preservation property: no
`undefined` leaves, camelCase (underscore-free) pairwise-distinct keys, and
no array nested directly inside an array. -/
def goodVal : JVal → Bool
  | .arr items => goodItems items
  | .obj fields => goodFields fields
  | .undef => false
  | _ => true

/-- `goodVal` over an array's elements. -/
def goodItems : List JVal → Bool
  | [] => true
  | v :: rest => goodItem v && goodItems rest

/-- One array element within scope: not an array (that is the shape-breaking
case), not `undefined`, objects recursively in scope. -/
def goodItem : JVal → Bool
  | .arr _ => false
  | .obj fields => goodFields fields
  | .undef => false
  | _ => true

/-- `goodVal` over an object's entries, with underscore-free keys that are
pairwise distinct. -/
def goodFields : List (String × JVal) → Bool
  | [] => true
  | (k, v) :: rest =>
    plainKey k && rest.all (fun q => q.1 ≠ k) && goodVal v && goodFields rest

end

mutual

/-- A fixpoint of `transformValue`: every primitive, and arrays/objects whose
contents are already in transcoded form. -/
def stableVal : JVal → Bool
  | .arr items => stableItems items
  | .obj fields => stableFields fields
  | _ => true

/-- `stableItem` over an array's elements. -/
def stableItems : List JVal → Bool
  | [] => true
  | v :: rest => stableItem v && stableItems rest

/-- An array element fixed by `transformItem`: not an array (those are turned
into index-keyed objects), objects recursively stable. -/
def stableItem : JVal → Bool
  | .arr _ => false
  | .obj fields => stableFields fields
  | _ => true

/-- An entry list fixed by `transformEntries []`: keys without uppercase
letters and pairwise distinct, values defined and stable. -/
def stableFields : List (String × JVal) → Bool
  | [] => true
  | (k, v) :: rest =>
    noUpperKey k && !isUndef v && rest.all (fun q => q.1 ≠ k) &&
      stableVal v && stableFields rest

end

/-- A failure thrown by an adapter operation: either the typed
`Crawl4AIError(message, type)` of a precondition guard, or the plain
`new Error(message)` rethrown by `apiRequest`. -/
inductive AdapterFailure where
  | c4ai (message : String) (etype : ErrorUtils.ErrorType)
  | plain (message : String)
deriving Repr, BEq, DecidableEq, Inhabited

/-- The HTTP layer under `apiRequest`, abstracted as its observable outcome:
given method, endpoint, transcoded body and transcoded query parameters, the
call either resolves with a body or rejects with a failure value. -/
def HttpLayer :=
  String → String → Option (List (String × JVal)) → Option (List (String × JVal)) →
    Except JSErr JVal

/-- The `API ${method.toUpperCase()} ${endpoint}` context string. -/
def requestContext (method endpoint : String) : String :=
  "API " ++ method.toUpper ++ " " ++ endpoint

/-- `apiRequest` (src/adapters/crawl4ai-adapter.ts): transcodes body and query
parameters, performs the call, maps an empty/falsy body to `{}`, and rethrows
any failure as `new Error(transformError(error, context).message)`. -/
def apiRequest (http : HttpLayer) (method endpoint : String)
    (data params : Option (List (String × JVal))) : Except AdapterFailure JVal :=
  let requestData := data.map transformParams
  let config := params.map transformParams
  match http method endpoint requestData config with
  | .ok v => if truthy v then .ok v else .ok (.obj [])
  | .error e =>
    .error (.plain (ErrorUtils.transformError e (requestContext method endpoint)).message)

/-- `scrape`: requires a truthy `url`, then POSTs `{url, ...options}` to
`/scrape`. -/
def scrape (http : HttpLayer) (url : String) (options : List (String × JVal)) :
    Except AdapterFailure JVal :=
  if url = "" then .error (.c4ai "URL is required for scraping" .VALIDATION)
  else apiRequest http "post" "/scrape" (some (("url", .str url) :: options)) none

/-- The JS `Error` thrown by `apiRequest`, as later classifiers see it:
an `Error` instance carrying the message (its stack is never read by the
code under verification, so it is left `none`). -/
def plainJsError (message : String) : JSErr :=
  { isError := true, message := message }

/-- `deepResearch`: requires a truthy `query` (the guard sits before the
`try`), then POSTs to `/deep-research`; any failure of the call is swallowed
into a resolved `{query, success: false, results: {summary: '', sources: []},
error}` payload. -/
def deepResearch (http : HttpLayer) (query : String) (options : List (String × JVal)) :
    Except AdapterFailure JVal :=
  if query = "" then .error (.c4ai "Query is required for deep research" .VALIDATION)
  else
    match apiRequest http "post" "/deep-research" (some (("query", .str query) :: options)) none with
    | .ok v => .ok v
    | .error f =>
      let msg := match f with
        | .c4ai m _ => m
        | .plain m => m
      .ok (.obj [("query", .str query),
                 ("success", .bool false),
                 ("results", .obj [("summary", .str ""), ("sources", .arr [])]),
                 ("error", .str (ErrorUtils.transformError (plainJsError msg) "Deep research failed").message)])

/-- `mapUrls`: requires a truthy `url`, then POSTs to `/map`. -/
def mapUrls (http : HttpLayer) (url : String) (options : List (String × JVal)) :
    Except AdapterFailure JVal :=
  if url = "" then .error (.c4ai "URL is required for URL mapping" .VALIDATION)
  else apiRequest http "post" "/map" (some (("url", .str url) :: options)) none

/-- `crawl`: requires a truthy `url`, then POSTs to `/crawl`. -/
def crawl (http : HttpLayer) (url : String) (options : List (String × JVal)) :
    Except AdapterFailure JVal :=
  if url = "" then .error (.c4ai "URL is required for crawling" .VALIDATION)
  else apiRequest http "post" "/crawl" (some (("url", .str url) :: options)) none

/-- `checkCrawlStatus`: requires a truthy `id`, then GETs
`/crawl/{id}/status` with the options as query parameters. -/
def checkCrawlStatus (http : HttpLayer) (id : String) (options : List (String × JVal)) :
    Except AdapterFailure JVal :=
  if id = "" then .error (.c4ai "Crawl ID is required to check status" .VALIDATION)
  else apiRequest http "get" ("/crawl/" ++ id ++ "/status") none (some options)

/-- `extract`: requires a non-empty `urls` array, then POSTs to `/extract`. -/
def extract (http : HttpLayer) (urls : List String) (options : List (String × JVal)) :
    Except AdapterFailure JVal :=
  if urls.isEmpty then
    .error (.c4ai "At least one URL is required for extraction" .VALIDATION)
  else
    apiRequest http "post" "/extract"
      (some (("urls", .arr (urls.map .str)) :: options)) none

/-- `search`: requires a truthy `query`, then POSTs to `/search`. -/
def search (http : HttpLayer) (query : String) (options : List (String × JVal)) :
    Except AdapterFailure JVal :=
  if query = "" then .error (.c4ai "Search query is required" .VALIDATION)
  else apiRequest http "post" "/search" (some (("query", .str query) :: options)) none

end AdapterMain

namespace Adapter14

/-- `ErrorType` of the retrying adapter snapshot (part_014). -/
inductive ErrorType where
  | NETWORK
  | RATE_LIMIT
  | AUTHENTICATION
  | SERVER
  | CLIENT
  | UNKNOWN
deriving Repr, BEq, DecidableEq, Inhabited

/-- `Crawl4AIError` of the retrying adapter snapshot. -/
structure Crawl4AIError where
  message : String
  type : ErrorType
  statusCode : Option Int := none
  retryable : Bool := false
deriving Repr, BEq, DecidableEq, Inhabited

/-- `RetryConfig` of the retrying adapter snapshot. -/
structure RetryConfig where
  maxRetries : Nat
  initialDelayMs : Nat
  maxDelayMs : Nat
  backoffFactor : Nat
deriving Repr, BEq, DecidableEq, Inhabited

/-- `DEFAULT_RETRY_CONFIG`. -/
def DEFAULT_RETRY_CONFIG : RetryConfig :=
  { maxRetries := 3, initialDelayMs := 1000, maxDelayMs := 10000, backoffFactor := 2 }

/-- The axios response interceptor installed in the adapter constructor:
classifies a failed HTTP exchange into a `Crawl4AIError`.  `response = none`
is the no-response case; `message` is the axios error's own `.message`. -/
def interceptError (response : Option (Int × JVal)) (message : String) : Crawl4AIError :=
  match response with
  | none =>
    { message := "Network error: Unable to connect to the Crawl4AI API"
      type := .NETWORK
      retryable := true }
  | some (status, data) =>
    let errorMessage :=
      jsString (jsOr (optChain data "message") (jsOr (.str message) (.str "Unknown API error")))
    if status = 401 ∨ status = 403 then
      { message := "Authentication error: Invalid or expired API key"
        type := .AUTHENTICATION
        statusCode := some status }
    else if status = 429 then
      { message := "Rate limit exceeded: Too many requests"
        type := .RATE_LIMIT
        statusCode := some status
        retryable := true }
    else if status = 400 ∨ status = 422 then
      { message := "Client error: " ++ errorMessage
        type := .CLIENT
        statusCode := some status }
    else if status = 500 ∨ status = 502 ∨ status = 503 ∨ status = 504 then
      { message := "Server error: " ++ errorMessage
        type := .SERVER
        statusCode := some status
        retryable := true }
    else
      { message := errorMessage
        type := .UNKNOWN
        statusCode := some status }

/-- One network attempt, as `executeRequest`'s loop observes it: a resolved
payload, a rejection with a classified `Crawl4AIError` (what the interceptor
produces), or a rejection with any other `Error`. -/
inductive AttemptOutcome where
  | ok (data : JVal)
  | c4aiFail (e : Crawl4AIError)
  | otherFail (message : String)
deriving Repr, BEq, Inhabited

/-- The failure `executeRequest` finally throws. -/
inductive ExecFailure where
  | c4ai (e : Crawl4AIError)
  | other (message : String)
deriving Repr, BEq, Inhabited

/-- The retry loop of `executeRequest`, entered with `retries = r`: one
attempt per iteration; a retryable `Crawl4AIError` with remaining budget
(`retries < maxRetries`) waits `min(initialDelay * backoffFactor^retries,
maxDelay)` and retries; anything else ends the loop.  Returns the final
outcome, the number of network attempts performed, and the delays waited. -/
def retryLoop (cfg : RetryConfig) (attempt : Nat → AttemptOutcome) (r : Nat) :
    Except ExecFailure JVal × Nat × List Nat :=
  match attempt r with
  | .ok v => (.ok v, 1, [])
  | .c4aiFail e =>
    if h : e.retryable ∧ r < cfg.maxRetries then
      let d := min (cfg.initialDelayMs * cfg.backoffFactor ^ r) cfg.maxDelayMs
      let rest := retryLoop cfg attempt (r + 1)
      (rest.1, rest.2.1 + 1, d :: rest.2.2)
    else (.error (.c4ai e), 1, [])
  | .otherFail m => (.error (.other m), 1, [])
termination_by cfg.maxRetries - r
decreasing_by omega

/-- The adapter's LRU cache, as an association list from cache key to payload.
Capacity eviction and TTL expiry are not modelled; no verified property
depends on them. -/
abbrev Cache := List (String × JVal)

/-- `cache.get`. -/
def cacheGet (c : Cache) (k : String) : Option JVal := List.lookup k c

/-- `cache.set`: replace in place or append. -/
def cacheSet : Cache → String → JVal → Cache
  | [], k, v => [(k, v)]
  | (k', v') :: rest, k, v =>
    if k' = k then (k, v) :: rest else (k', v') :: cacheSet rest k v

/-- What one `executeRequest` run produces: the outcome, how many network
attempts it made, the delays it waited, and the cache it leaves behind. -/
structure ExecResult where
  result : Except ExecFailure JVal
  networkCalls : Nat
  delays : List Nat
  cache : Cache
deriving Repr, Inhabited

/-- `executeRequest` (part_014): the cache is consulted only when
`method === 'GET'` and a cache key was supplied; a missing or bypassed cache
runs the retry loop; only a successful GET with a cache key is stored back. -/
def executeRequest (cfg : RetryConfig) (cache : Cache) (method : String)
    (cacheKey : Option String) (attempt : Nat → AttemptOutcome) : ExecResult :=
  let hit : Option JVal :=
    if method = "GET" then
      match cacheKey with
      | some k => cacheGet cache k
      | none => none
    else none
  match hit with
  | some v => { result := .ok v, networkCalls := 0, delays := [], cache := cache }
  | none =>
    let out := retryLoop cfg attempt 0
    let cache' :=
      match out.1, cacheKey with
      | .ok v, some k => if method = "GET" then cacheSet cache k v else cache
      | _, _ => cache
    { result := out.1, networkCalls := out.2.1, delays := out.2.2, cache := cache' }

/-- The cache key `scrape:${url}:${JSON.stringify(options)}`. -/
def scrapeCacheKey (url : String) (options : List (String × JVal)) : String :=
  "scrape:" ++ url ++ ":" ++ jsonRender (.obj options)

/-- `scrape` (part_014): a POST to `/scrape` that nevertheless passes a cache
key to `executeRequest`.  The catch block only rewraps the failure message,
which no verified property observes, so it is left out of the embedding. -/
def scrape (cfg : RetryConfig) (cache : Cache) (url : String)
    (options : List (String × JVal)) (attempt : Nat → AttemptOutcome) : ExecResult :=
  executeRequest cfg cache "POST" (some (scrapeCacheKey url options)) attempt

/-- `mapUrls` (part_014): POST `/map` with cache key
`map:${url}:${JSON.stringify(options)}`. -/
def mapUrls (cfg : RetryConfig) (cache : Cache) (url : String)
    (options : List (String × JVal)) (attempt : Nat → AttemptOutcome) : ExecResult :=
  executeRequest cfg cache "POST" (some ("map:" ++ url ++ ":" ++ jsonRender (.obj options))) attempt

/-- `extract` (part_014): POST `/extract` with cache key
`extract:${urls.join(',')}:${JSON.stringify(options)}`. -/
def extract (cfg : RetryConfig) (cache : Cache) (urls : List String)
    (options : List (String × JVal)) (attempt : Nat → AttemptOutcome) : ExecResult :=
  executeRequest cfg cache "POST"
    (some ("extract:" ++ String.intercalate "," urls ++ ":" ++ jsonRender (.obj options))) attempt

/-- `crawl` (part_014): POST `/crawl`, no cache key. -/
def crawl (cfg : RetryConfig) (cache : Cache) (url : String)
    (options : List (String × JVal)) (attempt : Nat → AttemptOutcome) : ExecResult :=
  executeRequest cfg cache "POST" none attempt

/-- `deepResearch` (part_014): POST `/deep-research`, no cache key. -/
def deepResearch (cfg : RetryConfig) (cache : Cache) (query : String)
    (options : List (String × JVal)) (attempt : Nat → AttemptOutcome) : ExecResult :=
  executeRequest cfg cache "POST" none attempt

/-- `checkCrawlStatus` (part_014): a GET to `/crawl/{id}/status` that passes
no cache key at all. -/
def checkCrawlStatus (cfg : RetryConfig) (cache : Cache) (id : String)
    (options : List (String × JVal)) (attempt : Nat → AttemptOutcome) : ExecResult :=
  executeRequest cfg cache "GET" none attempt

end Adapter14

namespace FormatUtils

/-- An MCP content block `{type, text}`.  The handlers assign arbitrary JS
values to `text` (e.g. `text: content.results.summary`), so blocks are kept
as JS objects. -/
def mkBlock (btype : String) (text : JVal) : JVal :=
  .obj [("type", .str btype), ("text", text)]

/-- A `{type: 'text', text}` block. -/
def textBlock (text : JVal) : JVal := mkBlock "text" text

/-- A `{type: 'html', text}` block. -/
def htmlBlock (text : JVal) : JVal := mkBlock "html" text

/-- A `{type: 'json', text}` block. -/
def jsonBlock (text : JVal) : JVal := mkBlock "json" text

/-- A `{type: 'image', text}` block. -/
def imageBlock (text : JVal) : JVal := mkBlock "image" text

/-- `content.every(item => 'type' in item && 'text' in item)`: scans left to
right; an object missing a key makes the check `false`, while a primitive
element raises a `TypeError` (the `in` operator rejects non-objects). -/
def mcpScan : List JVal → Except Unit Bool
  | [] => .ok true
  | item :: rest =>
    match hasKey item "type" with
    | .error e => .error e
    | .ok false => .ok false
    | .ok true =>
      match hasKey item "text" with
      | .error e => .error e
      | .ok false => .ok false
      | .ok true => mcpScan rest

/-- `Array.prototype.map` with a callback that can throw. -/
def mapExcept (f : JVal → Except Unit String) : List JVal → Except Unit (List String)
  | [] => .ok []
  | x :: rest =>
    match f x with
    | .error e => .error e
    | .ok s =>
      match mapExcept f rest with
      | .error e => .error e
      | .ok ss => .ok (s :: ss)

/-- `Array.prototype.map` with the element index, for callbacks that throw. -/
def mapIdxExcept (f : Nat → JVal → Except Unit String) :
    Nat → List JVal → Except Unit (List String)
  | _, [] => .ok []
  | i, x :: rest =>
    match f i x with
    | .error e => .error e
    | .ok s =>
      match mapIdxExcept f (i + 1) rest with
      | .error e => .error e
      | .ok ss => .ok (s :: ss)

/-- One source line of `handleResearchResults`: strings render as `- s`;
objects render `- {url}{: title}`; `null`/`undefined` elements raise a
`TypeError` at `s.url`. -/
def renderSource (s : JVal) : Except Unit String :=
  match s with
  | .str t => .ok ("- " ++ t)
  | .null => .error ()
  | .undef => .error ()
  | v =>
    let url := jsOr (getField v "url") (.str "")
    let title :=
      if truthy (getField v "title") then ": " ++ jsString (getField v "title") else ""
    .ok ("- " ++ jsString url ++ title)

/-- `handleResearchResults`: a truthy `results` that is a string becomes one
text block; a `results` object with truthy `summary` becomes a summary block
plus, when `sources` is an array with a non-empty rendering, a sources
block. -/
def handleResearchResults (content : JVal) : Except Unit (List JVal) :=
  let results := getField content "results"
  if !truthy results then .ok []
  else
    match results with
    | .str s => .ok [textBlock (.str s)]
    | _ =>
      let summary := getField results "summary"
      if truthy summary then
        match getField results "sources" with
        | .arr ss =>
          match mapExcept renderSource ss with
          | .error e => .error e
          | .ok lines =>
            let sourcesList := String.intercalate "\n" lines
            if sourcesList ≠ "" then
              .ok [textBlock summary, textBlock (.str ("\nSources:\n" ++ sourcesList))]
            else .ok [textBlock summary]
        | _ => .ok [textBlock summary]
      else .ok []

/-- `handleUrlMapping`: a `urls` array becomes one text block with a count
header and a `- url` line per element. -/
def handleUrlMapping (content : JVal) : Except Unit (List JVal) :=
  match getField content "urls" with
  | .arr us =>
    let urlCount := us.length
    let urlList := String.intercalate "\n" (us.map fun u => "- " ++ jsString u)
    .ok [textBlock (.str (toString urlCount ++ " URL" ++
      (if urlCount = 1 then "" else "s") ++ " discovered:\n" ++ urlList))]
  | _ => .ok []

/-- One entry of `handleSearchResults`: destructures
`{url = '', title, snippet, description}` (a `TypeError` on `null`/`undefined`
elements), with `title || url || 'Result N'` and
`snippet || description || ''` fallbacks. -/
def renderSearchResult (index : Nat) (result : JVal) : Except Unit String :=
  match result with
  | .null => .error ()
  | .undef => .error ()
  | v =>
    let url := if isUndef (getField v "url") then .str "" else getField v "url"
    let title := jsOr (getField v "title") (jsOr url (.str ("Result " ++ toString (index + 1))))
    let snippet := jsOr (getField v "snippet") (jsOr (getField v "description") (.str ""))
    .ok (toString (index + 1) ++ ". **" ++ jsString title ++ "**\n   " ++
      jsString url ++ "\n   " ++ jsString snippet ++ "\n")

/-- `handleSearchResults`: a `results` array becomes one text block with a
count-and-query header and a numbered, titled listing. -/
def handleSearchResults (content : JVal) : Except Unit (List JVal) :=
  match getField content "results" with
  | .arr rs =>
    let resultCount := rs.length
    let searchQuery :=
      if isUndef (getField content "query") then .str "" else getField content "query"
    let header := toString resultCount ++ " result" ++
      (if resultCount = 1 then "" else "s") ++ " for \"" ++ jsString searchQuery ++ "\":\n\n"
    match mapIdxExcept renderSearchResult 0 rs with
    | .error e => .error e
    | .ok lines => .ok [textBlock (.str (header ++ String.intercalate "\n" lines))]
  | _ => .ok []

/-- One error line of `handleCrawlStatus`: `- {url}: {message}` with
`error.message || error.error || 'Unknown error'`; a `TypeError` on
`null`/`undefined` elements. -/
def renderCrawlError (e : JVal) : Except Unit String :=
  match e with
  | .null => .error ()
  | .undef => .error ()
  | v =>
    let url := jsOr (getField v "url") (.str "")
    let msg := jsOr (getField v "message") (jsOr (getField v "error") (.str "Unknown error"))
    .ok ("- " ++ jsString url ++ ": " ++ jsString msg)

/-- `handleCrawlStatus`: an object with truthy `id` and a present `status`
becomes a status summary block (id, status, progress, optional counters),
plus one block listing every crawled URL when `urls` is a non-empty array,
plus one block listing every error when `errors` is a non-empty array.  The
listings are complete: no preview cap, no truncation suffix. -/
def handleCrawlStatus (content : JVal) : Except Unit (List JVal) :=
  if !truthy (getField content "id") || isUndef (getField content "status") then .ok []
  else
    let id := getField content "id"
    let status := getField content "status"
    let progress :=
      if !isUndef (getField content "progress") then jsString (getField content "progress") ++ "%"
      else "unknown"
    let st1 := "Crawl Job: " ++ jsString id ++ "\nStatus: " ++ jsString status ++
      "\nProgress: " ++ progress
    let st2 :=
      if !isUndef (getField content "urls_count") then
        st1 ++ "\nURLs Crawled: " ++ jsString (getField content "urls_count")
      else st1
    let st3 :=
      if !isUndef (getField content "errors_count") then
        st2 ++ "\nErrors: " ++ jsString (getField content "errors_count")
      else st2
    let parts := [textBlock (.str st3)]
    let parts2 :=
      match getField content "urls" with
      | .arr us =>
        if us.length > 0 then
          parts ++ [textBlock (.str ("\nCrawled URLs:\n" ++
            String.intercalate "\n" (us.map fun u => "- " ++ jsString u)))]
        else parts
      | _ => parts
    match getField content "errors" with
    | .arr es =>
      if es.length > 0 then
        match mapExcept renderCrawlError es with
        | .error e => .error e
        | .ok lines =>
          .ok (parts2 ++ [textBlock (.str ("\nErrors:\n" ++ String.intercalate "\n" lines))])
      else .ok parts2
    | _ => .ok parts2

/-- One link line of `handleScrapeResults`: strings are the URL; objects use
`link.url || ''` with an optional `: text` suffix; a `TypeError` on
`null`/`undefined` elements. -/
def renderLink (link : JVal) : Except Unit String :=
  match link with
  | .str s => .ok ("- " ++ s)
  | .null => .error ()
  | .undef => .error ()
  | v =>
    let url := jsOr (getField v "url") (.str "")
    let text :=
      if truthy (getField v "text") then ": " ++ jsString (getField v "text") else ""
    .ok ("- " ++ jsString url ++ text)

/-- `typeof v === 'object'`. -/
def isObjTypeof : JVal → Bool
  | .obj _ => true
  | .arr _ => true
  | .null => true
  | _ => false

/-- `handleScrapeResults`: on a truthy object-typed `formats`, emits markdown
(else HTML, else raw HTML) as one block, an image block for a screenshot, and
a link-listing block for a non-empty `links` array. -/
def handleScrapeResults (content : JVal) : Except Unit (List JVal) :=
  let formats := getField content "formats"
  if truthy formats && isObjTypeof formats then
    let parts1 : List JVal :=
      if truthy (getField formats "markdown") then [textBlock (getField formats "markdown")]
      else if truthy (getField formats "html") then [htmlBlock (getField formats "html")]
      else if truthy (getField formats "rawHtml") then [htmlBlock (getField formats "rawHtml")]
      else []
    let parts2 :=
      if truthy (getField formats "screenshot") then
        parts1 ++ [imageBlock (getField formats "screenshot")]
      else parts1
    match getField formats "links" with
    | .arr ls =>
      if ls.length > 0 then
        match mapExcept renderLink ls with
        | .error e => .error e
        | .ok lines =>
          let linkCount := ls.length
          .ok (parts2 ++ [textBlock (.str ("\n" ++ toString linkCount ++ " link" ++
            (if linkCount = 1 then "" else "s") ++ " found:\n" ++
            String.intercalate "\n" lines))])
      else .ok parts2
    | _ => .ok parts2
  else .ok []

/-- `handleFormatProperties`: top-level `markdown`/`html`/`text` properties
become one block of the matching type; a truthy object-typed `extracted`
becomes one pretty-printed JSON block. -/
def handleFormatProperties (content : JVal) : Except Unit (List JVal) :=
  if truthy (getField content "markdown") then .ok [textBlock (getField content "markdown")]
  else if truthy (getField content "html") then .ok [htmlBlock (getField content "html")]
  else if truthy (getField content "text") then .ok [textBlock (getField content "text")]
  else if truthy (getField content "extracted") && isObjTypeof (getField content "extracted") then
    .ok [jsonBlock (.str (jsonRenderPretty 0 (getField content "extracted")))]
  else .ok []

/-- The handler chain of `formatContent`, in source order. -/
def handlersList : List (JVal → Except Unit (List JVal)) :=
  [handleResearchResults, handleUrlMapping, handleSearchResults,
   handleCrawlStatus, handleScrapeResults, handleFormatProperties]

/-- `for (const handler of handlers) { ... }`: the first non-empty result
wins; an empty run falls through. -/
def runHandlers (content : JVal) : List (JVal → Except Unit (List JVal)) →
    Except Unit (List JVal)
  | [] => .ok []
  | h :: rest =>
    match h content with
    | .error e => .error e
    | .ok r => if r.length > 0 then .ok r else runHandlers content rest

/-- The tail of `formatContent` after the already-in-MCP-format test:
nullish payloads become an informational block, strings a text block, other
primitives a `String(value)` block; objects and non-MCP arrays go through the
handler chain, defaulting to one pretty-printed JSON block. -/
def formatContentRest (content : JVal) : Except Unit (List JVal) :=
  match content with
  | .null => .ok [textBlock (.str "No content returned.")]
  | .undef => .ok [textBlock (.str "No content returned.")]
  | .str s => .ok [textBlock (.str s)]
  | .bool b => .ok [textBlock (.str (jsString (.bool b)))]
  | .num n => .ok [textBlock (.str (jsString (.num n)))]
  | v =>
    match runHandlers v handlersList with
    | .error e => .error e
    | .ok r =>
      if r.length > 0 then .ok r
      else .ok [jsonBlock (.str (jsonRenderPretty 0 v))]

/-- `formatContent` (src/utils/format-utils.ts): an array whose elements all
carry `type` and `text` keys is returned as-is (the scan throws on primitive
elements); everything else goes through `formatContentRest`. -/
def formatContent (content : JVal) : Except Unit (List JVal) :=
  match content with
  | .arr items =>
    match mcpScan items with
    | .error e => .error e
    | .ok true => .ok items
    | .ok false => formatContentRest (.arr items)
  | v => formatContentRest v

end FormatUtils

/-! ## Theorems -/

namespace AdapterMain

theorem toNat_ofNat_valid {n : Nat} (hv : n.isValidChar) : (Char.ofNat n).toNat = n := by
  simp [Char.ofNat, hv, Char.ofNatAux, Char.toNat, UInt32.toNat]

theorem toLower_toNat_of_upper {c : Char} (h1 : 65 ≤ c.toNat) (h2 : c.toNat ≤ 90) :
    c.toLower.toNat = c.toNat + 32 := by
  unfold Char.toLower
  rw [if_pos ⟨h1, h2⟩]
  exact toNat_ofNat_valid (Or.inl (by omega))

theorem char_toNat_inj {c d : Char} (h : c.toNat = d.toNat) : c = d :=
  Char.ext (UInt32.ext h)

theorem snakeChar_no_upper {c d : Char} (hd : d ∈ snakeChar c) : ¬('A' ≤ d ∧ d ≤ 'Z') := by
  by_cases h : 'A' ≤ c ∧ c ≤ 'Z'
  · rw [snakeChar, if_pos h] at hd
    simp only [List.mem_cons, List.not_mem_nil, or_false] at hd
    rcases hd with h1 | h1
    · subst h1; decide
    · subst h1
      intro hcon
      have h65 : (65 : Nat) ≤ c.toNat := h.1
      have h90 : c.toNat ≤ 90 := h.2
      have hlo : c.toLower.toNat = c.toNat + 32 := toLower_toNat_of_upper h65 h90
      have hle : c.toLower.toNat ≤ 90 := hcon.2
      omega
  · rw [snakeChar, if_neg h] at hd
    simp at hd
    subst hd
    exact h

theorem not_upper_or_iff {c : Char} : (c < 'A' ∨ 'Z' < c) ↔ ¬('A' ≤ c ∧ c ≤ 'Z') := by
  constructor
  · rintro (h | h) ⟨h1, h2⟩
    · exact absurd h1 (Char.not_le.mpr h)
    · exact absurd h2 (Char.not_le.mpr h)
  · intro hn
    by_cases hA : 'A' ≤ c
    · right
      exact Char.not_le.mp (fun hz => hn ⟨hA, hz⟩)
    · left
      exact Char.not_le.mp hA

theorem noUpperKey_toSnakeCase (s : String) : noUpperKey (toSnakeCase s) = true := by
  simp only [noUpperKey, toSnakeCase, List.all_eq_true]
  intro c hc
  simp only [List.mem_flatMap] at hc
  obtain ⟨a, _, hmem⟩ := hc
  simp only [decide_eq_true_eq]
  exact snakeChar_no_upper hmem

theorem flatMap_snakeChar_of_noUpper :
    ∀ l : List Char, (∀ c ∈ l, ¬('A' ≤ c ∧ c ≤ 'Z')) → l.flatMap snakeChar = l := by
  intro l
  induction l with
  | nil => intro _; rfl
  | cons c rest ih =>
    intro h
    have hc := h c (by simp)
    simp only [List.flatMap_cons, snakeChar, if_neg hc]
    simp [ih fun d hd => h d (by simp [hd])]

theorem noUpperKey_iff {s : String} :
    noUpperKey s = true ↔ ∀ c ∈ s.data, ¬('A' ≤ c ∧ c ≤ 'Z') := by
  simp only [noUpperKey, List.all_eq_true, decide_eq_true_eq]

theorem toSnakeCase_of_noUpper {s : String} (h : noUpperKey s = true) : toSnakeCase s = s := by
  rw [noUpperKey_iff] at h
  obtain ⟨l⟩ := s
  simp only [toSnakeCase]
  rw [flatMap_snakeChar_of_noUpper l (fun c hc => h c hc)]

theorem toSnakeCase_idem (s : String) : toSnakeCase (toSnakeCase s) = toSnakeCase s :=
  toSnakeCase_of_noUpper (noUpperKey_toSnakeCase s)

theorem flatMap_snakeChar_inj :
    ∀ l1 l2 : List Char, (∀ c ∈ l1, c ≠ '_') → (∀ c ∈ l2, c ≠ '_') →
      l1.flatMap snakeChar = l2.flatMap snakeChar → l1 = l2 := by
  intro l1
  induction l1 with
  | nil =>
    intro l2 _ h2 heq
    cases l2 with
    | nil => rfl
    | cons c t =>
      exfalso
      simp only [List.flatMap_nil, List.flatMap_cons] at heq
      by_cases hu : 'A' ≤ c ∧ c ≤ 'Z' <;> simp [snakeChar, hu] at heq
  | cons c1 t1 ih =>
    intro l2 h1 h2 heq
    cases l2 with
    | nil =>
      exfalso
      simp only [List.flatMap_cons, List.flatMap_nil] at heq
      by_cases hu : 'A' ≤ c1 ∧ c1 ≤ 'Z' <;> simp [snakeChar, hu] at heq
    | cons c2 t2 =>
      simp only [List.flatMap_cons] at heq
      by_cases hu1 : 'A' ≤ c1 ∧ c1 ≤ 'Z' <;> by_cases hu2 : 'A' ≤ c2 ∧ c2 ≤ 'Z'
      · simp only [snakeChar, if_pos hu1, if_pos hu2, List.cons_append,
          List.nil_append, List.cons.injEq] at heq
        obtain ⟨-, hlow, hrest⟩ := heq
        have hc : c1 = c2 := by
          apply char_toNat_inj
          have e1 : c1.toLower.toNat = c1.toNat + 32 := toLower_toNat_of_upper hu1.1 hu1.2
          have e2 : c2.toLower.toNat = c2.toNat + 32 := toLower_toNat_of_upper hu2.1 hu2.2
          have : c1.toLower.toNat = c2.toLower.toNat := by rw [hlow]
          omega
        subst hc
        rw [ih t2 (fun d hd => h1 d (by simp [hd])) (fun d hd => h2 d (by simp [hd])) hrest]
      · exfalso
        simp only [snakeChar, if_pos hu1, if_neg hu2, List.cons_append, List.nil_append,
          List.cons.injEq] at heq
        exact h2 c2 (by simp) heq.1.symm
      · exfalso
        simp only [snakeChar, if_neg hu1, if_pos hu2, List.cons_append, List.nil_append,
          List.cons.injEq] at heq
        exact h1 c1 (by simp) heq.1
      · simp only [snakeChar, if_neg hu1, if_neg hu2, List.cons_append, List.nil_append,
          List.cons.injEq] at heq
        obtain ⟨hc, hrest⟩ := heq
        subst hc
        rw [ih t2 (fun d hd => h1 d (by simp [hd])) (fun d hd => h2 d (by simp [hd])) hrest]

theorem toSnakeCase_inj {s t : String} (hs : plainKey s = true) (ht : plainKey t = true)
    (h : toSnakeCase s = toSnakeCase t) : s = t := by
  obtain ⟨ls⟩ := s
  obtain ⟨lt⟩ := t
  have hdata : ls.flatMap snakeChar = lt.flatMap snakeChar := congrArg String.data h
  simp only [plainKey, List.all_eq_true] at hs ht
  have := flatMap_snakeChar_inj ls lt
    (fun c hc => by simpa using hs c hc) (fun c hc => by simpa using ht c hc) hdata
  simp [this]

theorem setKey_append :
    ∀ (l : List (String × JVal)) (k : String) (v : JVal),
      (∀ p ∈ l, p.1 ≠ k) → setKey l k v = l ++ [(k, v)] := by
  intro l k v
  induction l with
  | nil => intro _; rfl
  | cons p rest ih =>
    intro h
    obtain ⟨k0, v0⟩ := p
    have hk : k0 ≠ k := h (k0, v0) (by simp)
    simp [setKey, hk, ih fun q hq => h q (by simp [hq])]

theorem all_setKey {P : String × JVal → Bool} :
    ∀ (l : List (String × JVal)) (k : String) (v : JVal),
      l.all P = true → P (k, v) = true → (setKey l k v).all P = true := by
  intro l k v
  induction l with
  | nil => intro _ hp; simp [setKey, hp]
  | cons p rest ih =>
    intro hall hp
    obtain ⟨k0, v0⟩ := p
    simp only [List.all_cons, Bool.and_eq_true] at hall
    by_cases hk : k0 = k
    · simp [setKey, hk, hp, hall.2]
    · simp [setKey, hk, hall.1, ih hall.2 hp]

theorem transformEntries_append :
    ∀ (l acc : List (String × JVal)),
      ((l.filter fun p => !isUndef p.2).map fun p => toSnakeCase p.1).Nodup →
      (∀ p ∈ l, isUndef p.2 = false → ∀ q ∈ acc, q.1 ≠ toSnakeCase p.1) →
      transformEntries acc l =
        acc ++ (l.filter fun p => !isUndef p.2).map
          fun p => (toSnakeCase p.1, transformValue p.2) := by
  intro l
  induction l with
  | nil => intro acc _ _; simp [transformEntries]
  | cons p rest ih =>
    intro acc hnd hfresh
    obtain ⟨k, v⟩ := p
    by_cases hu : isUndef v
    · rw [transformEntries, if_pos hu]
      have hnd' : ((rest.filter fun p => !isUndef p.2).map fun p => toSnakeCase p.1).Nodup := by
        simpa [List.filter_cons, hu] using hnd
      have hfresh' : ∀ p ∈ rest, isUndef p.2 = false → ∀ q ∈ acc, q.1 ≠ toSnakeCase p.1 :=
        fun p hp => hfresh p (by simp [hp])
      rw [ih acc hnd' hfresh']
      simp [List.filter_cons, hu]
    · rw [transformEntries, if_neg hu]
      have hvb : isUndef v = false := by simp [hu]
      have hfk : ∀ q ∈ acc, q.1 ≠ toSnakeCase k := hfresh (k, v) (by simp) hvb
      rw [setKey_append acc (toSnakeCase k) (transformValue v) hfk]
      have hfc : ((k, v) :: rest).filter (fun p => !isUndef p.2)
          = (k, v) :: rest.filter fun p => !isUndef p.2 := by
        simp [List.filter_cons, hu]
      rw [hfc] at hnd
      simp only [List.map_cons, List.nodup_cons] at hnd
      have hnd' := hnd.2
      have hhead := hnd.1
      have hfresh' : ∀ p ∈ rest, isUndef p.2 = false →
          ∀ q ∈ acc ++ [(toSnakeCase k, transformValue v)], q.1 ≠ toSnakeCase p.1 := by
        intro p hp hpu q hq
        rcases List.mem_append.mp hq with hq1 | hq2
        · exact hfresh p (by simp [hp]) hpu q hq1
        · simp only [List.mem_singleton] at hq2
          subst hq2
          intro hcon
          have hcon' : toSnakeCase k = toSnakeCase p.1 := hcon
          apply hhead
          rw [hcon']
          exact List.mem_map.mpr ⟨p, List.mem_filter.mpr ⟨hp, by simp [hpu]⟩, rfl⟩
      rw [ih (acc ++ [(toSnakeCase k, transformValue v)]) hnd' hfresh']
      simp [hfc]

theorem snake_keys_nodup {l : List (String × JVal)}
    (hplain : ∀ p ∈ l, plainKey p.1 = true)
    (hnd : (l.map fun p => p.1).Nodup) :
    (l.map fun p => toSnakeCase p.1).Nodup := by
  have hmm : (l.map fun p => toSnakeCase p.1) = (l.map fun p => p.1).map toSnakeCase := by
    rw [List.map_map]
    rfl
  rw [hmm]
  apply List.Nodup.map_on ?_ hnd
  intro x hx y hy hxy
  obtain ⟨p, hp, rfl⟩ := List.mem_map.mp hx
  obtain ⟨q, hq, rfl⟩ := List.mem_map.mp hy
  exact toSnakeCase_inj (hplain p hp) (hplain q hq) hxy

theorem goodVal_not_undef {v : JVal} (h : goodVal v = true) : isUndef v = false := by
  cases v <;> simp_all [goodVal, isUndef]

theorem goodFields_facts :
    ∀ l : List (String × JVal), goodFields l = true →
      (∀ p ∈ l, plainKey p.1 = true ∧ goodVal p.2 = true) ∧ (l.map fun p => p.1).Nodup := by
  intro l
  induction l with
  | nil => intro _; exact ⟨by simp, by simp⟩
  | cons p rest ih =>
    intro h
    obtain ⟨k, v⟩ := p
    rw [goodFields] at h
    simp only [Bool.and_eq_true] at h
    obtain ⟨⟨⟨hpk, hall⟩, hgv⟩, hgf⟩ := h
    obtain ⟨ihp, ihnd⟩ := ih hgf
    refine ⟨?_, ?_⟩
    · intro q hq
      rcases List.mem_cons.mp hq with rfl | hq2
      · exact ⟨hpk, hgv⟩
      · exact ihp q hq2
    · simp only [List.map_cons, List.nodup_cons]
      refine ⟨?_, ihnd⟩
      intro hcon
      obtain ⟨q, hq, hqe⟩ := List.mem_map.mp hcon
      have hne := List.all_eq_true.mp hall q hq
      simp only [decide_eq_true_eq] at hne
      exact hne hqe

theorem filter_defined_of_goodFields {l : List (String × JVal)} (h : goodFields l = true) :
    l.filter (fun p => !isUndef p.2) = l := by
  rw [List.filter_eq_self]
  intro p hp
  have hfact := (goodFields_facts l h).1 p hp
  simp [goodVal_not_undef hfact.2]

theorem transformParams_of_goodFields {l : List (String × JVal)} (h : goodFields l = true) :
    transformParams l = l.map fun p => (toSnakeCase p.1, transformValue p.2) := by
  have hfacts := goodFields_facts l h
  have hnd : ((l.filter fun p => !isUndef p.2).map fun p => toSnakeCase p.1).Nodup := by
    rw [filter_defined_of_goodFields h]
    exact snake_keys_nodup (fun p hp => (hfacts.1 p hp).1) hfacts.2
  rw [transformParams, transformEntries_append l [] hnd (by intro p _ _ q hq; cases hq)]
  simp [filter_defined_of_goodFields h]

theorem isUndef_eq_undef {v : JVal} (h : isUndef v = true) : v = .undef := by
  cases v <;> simp_all [isUndef]

theorem shapeFields_eq_map :
    ∀ l : List (String × JVal), shapeFields l = l.map fun p => shapeOf p.2 := by
  intro l
  induction l with
  | nil => simp [shapeFields]
  | cons p rest ih => simp [shapeFields, ih]

theorem shapeItems_eq_map : ∀ l : List JVal, shapeItems l = l.map shapeOf := by
  intro l
  induction l with
  | nil => simp [shapeItems]
  | cons v rest ih => simp [shapeItems, ih]

theorem shapeFields_transformEntries (fields : List (String × JVal))
    (hpt : ∀ p ∈ fields, goodVal p.2 = true → shapeOf (transformValue p.2) = shapeOf p.2)
    (hg : goodFields fields = true) :
    shapeFields (transformEntries [] fields) = shapeFields fields := by
  have hc : transformEntries [] fields = transformParams fields := rfl
  rw [hc, transformParams_of_goodFields hg, shapeFields_eq_map, shapeFields_eq_map,
    List.map_map]
  apply List.map_congr_left
  intro p hp
  exact hpt p hp ((goodFields_facts fields hg).1 p hp).2

theorem shapeOf_transformValue_of_good :
    ∀ v, goodVal v = true → shapeOf (transformValue v) = shapeOf v := by
  apply transformValue.induct
    (fun _ l => ∀ p ∈ l, goodVal p.2 = true → shapeOf (transformValue p.2) = shapeOf p.2)
    (fun v => goodVal v = true → shapeOf (transformValue v) = shapeOf v)
    (fun l => goodItems l = true → shapeItems (transformItems l) = shapeItems l)
    (fun v => goodItem v = true → shapeOf (transformItem v) = shapeOf v)
  · intro result p hp
    cases hp
  · intro result k v rest hu ih p hp hg
    rcases List.mem_cons.mp hp with rfl | hp2
    · rw [isUndef_eq_undef hu] at hg
      simp [goodVal] at hg
    · exact ih p hp2 hg
  · intro result k v rest hu ihv ih p hp hg
    rcases List.mem_cons.mp hp with rfl | hp2
    · exact ihv hg
    · exact ih p hp2 hg
  · intro items ih hg
    rw [transformValue]
    simp only [shapeOf]
    rw [ih (by simpa [goodVal] using hg)]
  · intro fields ih hg
    rw [transformValue]
    simp only [shapeOf]
    rw [shapeFields_transformEntries fields ih (by simpa [goodVal] using hg)]
  · intro v harr hobj hg
    cases v with
    | arr items => exact absurd rfl (harr items)
    | obj fields => exact absurd rfl (hobj fields)
    | null => simp [transformValue]
    | undef => simp [transformValue]
    | bool b => simp [transformValue]
    | num n => simp [transformValue]
    | str s => simp [transformValue]
  · intro _
    simp [transformItems]
  · intro v rest ihv ih hg
    simp only [goodItems, Bool.and_eq_true] at hg
    simp only [transformItems, shapeItems]
    rw [ihv hg.1, ih hg.2]
  · intro fields ih hg
    rw [transformItem]
    simp only [shapeOf]
    rw [shapeFields_transformEntries fields ih (by simpa [goodItem] using hg)]
  · intro items _ hg
    simp [goodItem] at hg
  · intro v hobj harr hg
    cases v with
    | arr items => exact absurd rfl (harr items)
    | obj fields => exact absurd rfl (hobj fields)
    | null => simp [transformItem]
    | undef => simp [transformItem]
    | bool b => simp [transformItem]
    | num n => simp [transformItem]
    | str s => simp [transformItem]

theorem isUndef_transformValue (v : JVal) : isUndef (transformValue v) = isUndef v := by
  cases v <;> simp [transformValue, isUndef]

theorem stableFields_mid :
    ∀ (l1 : List (String × JVal)) (k : String) (v : JVal) (l2 : List (String × JVal)),
      stableFields (l1 ++ (k, v) :: l2) = true →
      noUpperKey k = true ∧ isUndef v = false ∧ stableVal v = true ∧ ∀ q ∈ l1, q.1 ≠ k := by
  intro l1 k v l2
  induction l1 with
  | nil =>
    intro h
    rw [List.nil_append, stableFields] at h
    simp only [Bool.and_eq_true, Bool.not_eq_true'] at h
    exact ⟨h.1.1.1.1, h.1.1.1.2, h.1.2, by intro q hq; cases hq⟩
  | cons p rest ih =>
    intro h
    obtain ⟨k0, v0⟩ := p
    rw [List.cons_append, stableFields] at h
    simp only [Bool.and_eq_true] at h
    obtain ⟨⟨⟨⟨_, _⟩, hall⟩, _⟩, htail⟩ := h
    obtain ⟨e1, e2, e3, e4⟩ := ih htail
    refine ⟨e1, e2, e3, ?_⟩
    intro q hq
    rcases List.mem_cons.mp hq with rfl | hq2
    · have hmem : (k, v) ∈ rest ++ (k, v) :: l2 := by simp
      have := List.all_eq_true.mp hall (k, v) hmem
      simp only [decide_eq_true_eq] at this
      exact fun he => this (he ▸ rfl)
    · exact e4 q hq2

theorem stable_setKey :
    ∀ (acc : List (String × JVal)) (k : String) (v : JVal),
      stableFields acc = true → noUpperKey k = true → isUndef v = false →
      stableVal v = true → stableFields (setKey acc k v) = true := by
  intro acc k v
  induction acc with
  | nil =>
    intro _ hk hv hsv
    simp [setKey, stableFields, hk, hv, hsv]
  | cons p rest ih =>
    intro hacc hk hv hsv
    obtain ⟨k0, v0⟩ := p
    rw [stableFields] at hacc
    simp only [Bool.and_eq_true] at hacc
    obtain ⟨⟨⟨⟨h1, h2⟩, h3⟩, h4⟩, h5⟩ := hacc
    by_cases he : k0 = k
    · subst he
      rw [setKey, if_pos rfl, stableFields]
      simp only [Bool.and_eq_true, Bool.not_eq_true']
      exact ⟨⟨⟨⟨h1, hv⟩, h3⟩, hsv⟩, h5⟩
    · rw [setKey, if_neg he, stableFields]
      have hall : (setKey rest k v).all (fun q => decide (q.1 ≠ k0)) = true := by
        apply all_setKey rest k v h3
        simp only [decide_eq_true_eq]
        exact fun hcon => he hcon.symm
      simp only [Bool.and_eq_true, Bool.not_eq_true']
      exact ⟨⟨⟨⟨h1, by simpa using h2⟩, hall⟩, h4⟩, ih h5 hk hv hsv⟩

theorem stableFields_transformEntries_out :
    ∀ (acc l : List (String × JVal)), stableFields acc = true →
      stableFields (transformEntries acc l) = true := by
  apply transformEntries.induct
    (fun acc l => stableFields acc = true → stableFields (transformEntries acc l) = true)
    (fun v => stableVal (transformValue v) = true)
    (fun l => stableItems (transformItems l) = true)
    (fun v => stableItem (transformItem v) = true)
  · intro result h
    rw [transformEntries]
    exact h
  · intro result k v rest hu ih h
    rw [transformEntries, if_pos hu]
    exact ih h
  · intro result k v rest hu ihv ih h
    rw [transformEntries, if_neg hu]
    apply ih
    apply stable_setKey _ _ _ h (noUpperKey_toSnakeCase k) _ ihv
    rw [isUndef_transformValue]
    simpa using hu
  · intro items ih
    rw [transformValue]
    simpa [stableVal] using ih
  · intro fields ih
    rw [transformValue]
    have := ih rfl
    simpa [stableVal] using this
  · intro v harr hobj
    cases v with
    | arr items => exact absurd rfl (harr items)
    | obj fields => exact absurd rfl (hobj fields)
    | null => simp [transformValue, stableVal]
    | undef => simp [transformValue, stableVal]
    | bool b => simp [transformValue, stableVal]
    | num n => simp [transformValue, stableVal]
    | str s => simp [transformValue, stableVal]
  · simp [transformItems, stableItems]
  · intro v rest ihv ih
    simp only [transformItems, stableItems, Bool.and_eq_true]
    exact ⟨ihv, ih⟩
  · intro fields ih
    rw [transformItem]
    have := ih rfl
    simpa [stableItem] using this
  · intro items ih
    rw [transformItem]
    have := ih rfl
    simpa [stableItem] using this
  · intro v hobj harr
    cases v with
    | arr items => exact absurd rfl (harr items)
    | obj fields => exact absurd rfl (hobj fields)
    | null => simp [transformItem, stableItem]
    | undef => simp [transformItem, stableItem]
    | bool b => simp [transformItem, stableItem]
    | num n => simp [transformItem, stableItem]
    | str s => simp [transformItem, stableItem]

theorem transformEntries_of_stable :
    ∀ (acc l : List (String × JVal)), stableFields (acc ++ l) = true →
      transformEntries acc l = acc ++ l := by
  apply transformEntries.induct
    (fun acc l => stableFields (acc ++ l) = true → transformEntries acc l = acc ++ l)
    (fun v => stableVal v = true → transformValue v = v)
    (fun l => stableItems l = true → transformItems l = l)
    (fun v => stableItem v = true → transformItem v = v)
  · intro result _
    rw [transformEntries]
    simp
  · intro result k v rest hu _ h
    exfalso
    have := (stableFields_mid result k v rest h).2.1
    rw [hu] at this
    cases this
  · intro result k v rest hu ihv ih h
    obtain ⟨hk, _, hsv, hfresh⟩ := stableFields_mid result k v rest h
    have hassoc : (result ++ [(k, v)]) ++ rest = result ++ (k, v) :: rest := by simp
    rw [toSnakeCase_of_noUpper hk, ihv hsv, setKey_append result k v hfresh] at ih
    rw [transformEntries, if_neg hu, toSnakeCase_of_noUpper hk, ihv hsv,
      setKey_append result k v hfresh]
    rw [ih (by rw [hassoc]; exact h), hassoc]
  · intro items ih h
    rw [transformValue, ih (by simpa [stableVal] using h)]
  · intro fields ih h
    rw [transformValue]
    have := ih (by simpa [stableVal] using h)
    simpa using this
  · intro v harr hobj _
    cases v with
    | arr items => exact absurd rfl (harr items)
    | obj fields => exact absurd rfl (hobj fields)
    | null => simp [transformValue]
    | undef => simp [transformValue]
    | bool b => simp [transformValue]
    | num n => simp [transformValue]
    | str s => simp [transformValue]
  · intro _
    simp [transformItems]
  · intro v rest ihv ih h
    simp only [stableItems, Bool.and_eq_true] at h
    simp only [transformItems]
    rw [ihv h.1, ih h.2]
  · intro fields ih h
    rw [transformItem]
    have := ih (by simpa [stableItem] using h)
    simpa using this
  · intro items _ h
    simp [stableItem] at h
  · intro v hobj harr _
    cases v with
    | arr items => exact absurd rfl (harr items)
    | obj fields => exact absurd rfl (hobj fields)
    | null => simp [transformItem]
    | undef => simp [transformItem]
    | bool b => simp [transformItem]
    | num n => simp [transformItem]
    | str s => simp [transformItem]

theorem transformParams_idem (l : List (String × JVal)) :
    transformParams (transformParams l) = transformParams l := by
  have h1 : stableFields (transformParams l) = true :=
    stableFields_transformEntries_out [] l rfl
  have h2 := transformEntries_of_stable [] (transformParams l) (by simpa using h1)
  simpa [transformParams] using h2

theorem transformItems_eq_map : ∀ l : List JVal, transformItems l = l.map transformItem := by
  intro l
  induction l with
  | nil => rw [transformItems]; rfl
  | cons v rest ih => rw [transformItems, ih]; rfl

theorem transformEntries_keys_noUpper :
    ∀ (l acc : List (String × JVal)), acc.all (fun p => noUpperKey p.1) = true →
      (transformEntries acc l).all (fun p => noUpperKey p.1) = true := by
  intro l
  induction l with
  | nil =>
    intro acc h
    rw [transformEntries]
    exact h
  | cons p rest ih =>
    intro acc h
    obtain ⟨k, v⟩ := p
    by_cases hu : isUndef v
    · rw [transformEntries, if_pos hu]
      exact ih acc h
    · rw [transformEntries, if_neg hu]
      exact ih _ (all_setKey acc (toSnakeCase k) (transformValue v) h (noUpperKey_toSnakeCase k))

/-- C8 counterexample: the bag `{a: [[1, 2]]}` has a camelCase key and
JSON-serializable values with no `undefined` leaves, yet `transformParams`
turns the array nested inside the array into an index-keyed plain object
(`{a: [{"0": 1, "1": 2}]}`), so the output does not have the same nesting
shape as the input. -/
theorem transformParams_breaks_shape_on_nested_arrays :
    transformParams [("a", JVal.arr [JVal.arr [JVal.num 1, JVal.num 2]])]
      = [("a", JVal.arr [JVal.obj [("0", JVal.num 1), ("1", JVal.num 2)]])] ∧
    shapeFields [("a", JVal.arr [JVal.arr [JVal.num 1, JVal.num 2]])]
      = [JShape.arrS [JShape.arrS [JShape.leaf (JVal.num 1), JShape.leaf (JVal.num 2)]]] ∧
    shapeFields (transformParams [("a", JVal.arr [JVal.arr [JVal.num 1, JVal.num 2]])])
      = [JShape.arrS [JShape.objS [JShape.leaf (JVal.num 1), JShape.leaf (JVal.num 2)]]] ∧
    shapeFields (transformParams [("a", JVal.arr [JVal.arr [JVal.num 1, JVal.num 2]])])
      ≠ shapeFields [("a", JVal.arr [JVal.arr [JVal.num 1, JVal.num 2]])] := by
  have h1 : transformParams [("a", JVal.arr [JVal.arr [JVal.num 1, JVal.num 2]])]
      = [("a", JVal.arr [JVal.obj [("0", JVal.num 1), ("1", JVal.num 2)]])] := by
    simp only [transformParams, transformEntries, transformValue, transformItems,
      transformItem, setKey, isUndef, toSnakeCase, snakeChar, indexPairs]
    rfl
  have h2 : shapeFields [("a", JVal.arr [JVal.arr [JVal.num 1, JVal.num 2]])]
      = [JShape.arrS [JShape.arrS [JShape.leaf (JVal.num 1), JShape.leaf (JVal.num 2)]]] := by
    simp only [shapeFields, shapeOf, shapeItems]
  have h3 : shapeFields [("a", JVal.arr [JVal.obj [("0", JVal.num 1), ("1", JVal.num 2)]])]
      = [JShape.arrS [JShape.objS [JShape.leaf (JVal.num 1), JShape.leaf (JVal.num 2)]]] := by
    simp only [shapeFields, shapeOf, shapeItems]
  refine ⟨h1, h2, ?_, ?_⟩
  · rw [h1, h3]
  · rw [h1, h3, h2]
    simp

/-- C8 (amended): on parameter bags whose keys are camelCase
(underscore-free) and pairwise distinct at every level, whose values have no
`undefined` leaves, and which contain no array nested directly inside an
array, `transformParams` preserves the nesting shape (and the leaf values)
and produces only snake_case (uppercase-free) keys; and on every bag
whatsoever, applying `transformParams` to its own output returns it
unchanged. -/
theorem transformParams_shape_snake_idem :
    (∀ fields : List (String × JVal), goodFields fields = true →
        shapeFields (transformParams fields) = shapeFields fields ∧
        (transformParams fields).all (fun p => noUpperKey p.1) = true)
    ∧ ∀ fields : List (String × JVal),
        transformParams (transformParams fields) = transformParams fields := by
  constructor
  · intro fields hg
    constructor
    · rw [transformParams_of_goodFields hg, shapeFields_eq_map, shapeFields_eq_map,
        List.map_map]
      apply List.map_congr_left
      intro p hp
      exact shapeOf_transformValue_of_good p.2 ((goodFields_facts fields hg).1 p hp).2
    · exact transformEntries_keys_noUpper fields [] rfl
  · exact transformParams_idem

/-- C8 witness: the shape/snake-keys part applied to the concrete bag
`{fooBar: 1, baz: {innerKey: "x"}}`. -/
theorem transformParams_shape_snake_idem_witness :
    shapeFields (transformParams
        [("fooBar", JVal.num 1), ("baz", JVal.obj [("innerKey", JVal.str "x")])])
      = shapeFields [("fooBar", JVal.num 1), ("baz", JVal.obj [("innerKey", JVal.str "x")])] ∧
    (transformParams
        [("fooBar", JVal.num 1), ("baz", JVal.obj [("innerKey", JVal.str "x")])]).all
      (fun p => noUpperKey p.1) = true :=
  transformParams_shape_snake_idem.1
    [("fooBar", JVal.num 1), ("baz", JVal.obj [("innerKey", JVal.str "x")])]
    (by simp only [goodFields, goodVal, plainKey]; rfl)

/-- C9: value handling of the transcoder.  Under camelCase (underscore-free),
pairwise-distinct keys, `transformParams` is exactly: drop entries bound to
`undefined`, snake_case every remaining key, and transform every remaining
value, where `null` is kept as `null`, arrays are mapped element-wise
(primitive elements pass through unchanged, object elements are recursively
transcoded), and nested objects are recursively transcoded.  The concrete
example of the claim, `transcode({a: 1, b: undefined}) = {a: 1}`, is the
second conjunct. -/
theorem transformParams_value_rules :
    (∀ l : List (String × JVal),
        (∀ p ∈ l.filter (fun p => !isUndef p.2), plainKey p.1 = true) →
        ((l.filter fun p => !isUndef p.2).map fun p => p.1).Nodup →
        transformParams l =
          (l.filter fun p => !isUndef p.2).map fun p => (toSnakeCase p.1, transformValue p.2))
    ∧ transformParams [("a", JVal.num 1), ("b", JVal.undef)] = [("a", JVal.num 1)]
    ∧ (∀ (k : String) (rest : List (String × JVal)),
        transformEntries [] ((k, JVal.undef) :: rest) = transformEntries [] rest)
    ∧ transformValue JVal.null = JVal.null
    ∧ (∀ k, transformParams [(k, JVal.null)] = [(toSnakeCase k, JVal.null)])
    ∧ (∀ items, transformValue (JVal.arr items) = JVal.arr (items.map transformItem))
    ∧ transformItem JVal.null = JVal.null
    ∧ transformItem JVal.undef = JVal.undef
    ∧ (∀ b, transformItem (JVal.bool b) = JVal.bool b)
    ∧ (∀ n, transformItem (JVal.num n) = JVal.num n)
    ∧ (∀ s, transformItem (JVal.str s) = JVal.str s)
    ∧ (∀ fields, transformItem (JVal.obj fields) = JVal.obj (transformParams fields)) := by
  refine ⟨?_, ?_, ?_, ?_, ?_, ?_, ?_, ?_, ?_, ?_, ?_, ?_⟩
  · intro l hplain hnd
    rw [transformParams]
    rw [transformEntries_append l [] (snake_keys_nodup hplain hnd)
      (by intro p _ _ q hq; cases hq)]
    rfl
  · simp only [transformParams, transformEntries, transformValue, setKey, isUndef,
      toSnakeCase, snakeChar]
    rfl
  · intro k rest
    rw [transformEntries, if_pos (show isUndef JVal.undef = true from rfl)]
  · simp [transformValue]
  · intro k
    simp only [transformParams, transformEntries, transformValue, setKey, isUndef]
    rfl
  · intro items
    rw [transformValue, transformItems_eq_map]
  · simp [transformItem]
  · simp [transformItem]
  · intro b
    simp [transformItem]
  · intro n
    simp [transformItem]
  · intro s
    simp [transformItem]
  · intro fields
    rw [transformItem]
    rfl

/-- C9 witness: the general characterization applied to the concrete bag
`{fooBar: 1, gone: undefined, keep: null}`. -/
theorem transformParams_value_rules_witness :
    transformParams [("fooBar", JVal.num 1), ("gone", JVal.undef), ("keep", JVal.null)]
      = ([("fooBar", JVal.num 1), ("gone", JVal.undef), ("keep", JVal.null)].filter
          (fun p => !isUndef p.2)).map fun p => (toSnakeCase p.1, transformValue p.2) :=
  transformParams_value_rules.1
    [("fooBar", JVal.num 1), ("gone", JVal.undef), ("keep", JVal.null)]
    (by intro p hp; fin_cases hp <;> rfl)
    (by simp [isUndef])

end AdapterMain

namespace Adapter14

theorem retryLoop_allFail (cfg : RetryConfig) (e : Crawl4AIError) (he : e.retryable = true) :
    ∀ (k r : Nat), cfg.maxRetries - r = k →
      retryLoop cfg (fun _ => .c4aiFail e) r =
        (.error (.c4ai e), k + 1,
          (List.range k).map fun i =>
            min (cfg.initialDelayMs * cfg.backoffFactor ^ (r + i)) cfg.maxDelayMs) := by
  intro k
  induction k with
  | zero =>
    intro r hr
    rw [retryLoop]
    have hcond : ¬(e.retryable = true ∧ r < cfg.maxRetries) := by
      rintro ⟨-, hlt⟩
      omega
    simp [hcond]
  | succ n ih =>
    intro r hr
    rw [retryLoop]
    have hcond : e.retryable = true ∧ r < cfg.maxRetries := ⟨he, by omega⟩
    simp only [dif_pos hcond]
    rw [ih (r + 1) (by omega)]
    refine Prod.ext rfl (Prod.ext rfl ?_)
    simp only [List.range_succ_eq_map, List.map_cons, List.map_map]
    rw [Nat.add_zero]
    congr 1
    apply List.map_congr_left
    intro i _
    have harith : r + 1 + i = r + Nat.succ i := by omega
    simp [Function.comp, harith]

/-- C3: an execution whose attempts all fail with a retryable classified
error performs exactly `maxRetries + 1` network attempts, waiting
`min(initialDelay * backoffFactor^attempt, maxDelay)` before each retry, and
finally raises that classified error (in particular, a SERVER-kind retryable
error is raised with its kind intact); a non-retryable failure performs
exactly one attempt; and the default configuration is maxRetries 3,
initialDelay 1000ms, factor 2, maxDelay 10000ms. -/
theorem retry_backoff_bound :
    (∀ (cfg : RetryConfig) (e : Crawl4AIError),
        e.retryable = true → e.type = .SERVER →
        retryLoop cfg (fun _ => .c4aiFail e) 0 =
          (.error (.c4ai e), cfg.maxRetries + 1,
            (List.range cfg.maxRetries).map fun i =>
              min (cfg.initialDelayMs * cfg.backoffFactor ^ i) cfg.maxDelayMs))
    ∧ (∀ (cfg : RetryConfig) (e : Crawl4AIError),
        e.retryable = false →
        retryLoop cfg (fun _ => .c4aiFail e) 0 = (.error (.c4ai e), 1, []))
    ∧ DEFAULT_RETRY_CONFIG.maxRetries = 3
    ∧ DEFAULT_RETRY_CONFIG.initialDelayMs = 1000
    ∧ DEFAULT_RETRY_CONFIG.backoffFactor = 2
    ∧ DEFAULT_RETRY_CONFIG.maxDelayMs = 10000 := by
  refine ⟨?_, ?_, rfl, rfl, rfl, rfl⟩
  · intro cfg e he _
    have h := retryLoop_allFail cfg e he cfg.maxRetries 0 (by omega)
    simpa using h
  · intro cfg e he
    rw [retryLoop]
    have hcond : ¬(e.retryable = true ∧ 0 < cfg.maxRetries) := by
      rintro ⟨hr, -⟩
      rw [he] at hr
      cases hr
    simp [hcond]

theorem retryLoop_pos (cfg : RetryConfig) (attempt : Nat → AttemptOutcome) (r : Nat) :
    1 ≤ (retryLoop cfg attempt r).2.1 := by
  rw [retryLoop]
  rcases hA : attempt r with v | e | m
  · simp
  · by_cases h : e.retryable = true ∧ r < cfg.maxRetries
    · simp [dif_pos h]
    · simp [dif_neg h]
  · simp

theorem executeRequest_post (cfg : RetryConfig) (cache : Cache) (cacheKey : Option String)
    (attempt : Nat → AttemptOutcome) :
    (executeRequest cfg cache "POST" cacheKey attempt).cache = cache ∧
    1 ≤ (executeRequest cfg cache "POST" cacheKey attempt).networkCalls := by
  unfold executeRequest
  simp only [if_neg (by decide : ¬("POST" : String) = "GET")]
  rcases hres : (retryLoop cfg attempt 0).1 with e | v
  all_goals rcases cacheKey with _ | k
  all_goals simp [hres, retryLoop_pos]

theorem executeRequest_get_nokey (cfg : RetryConfig) (cache : Cache)
    (attempt : Nat → AttemptOutcome) :
    (executeRequest cfg cache "GET" none attempt).cache = cache ∧
    1 ≤ (executeRequest cfg cache "GET" none attempt).networkCalls := by
  unfold executeRequest
  simp only [if_pos rfl]
  rcases hres : (retryLoop cfg attempt 0).1 with e | v
  all_goals simp [hres, retryLoop_pos]

/-- C1 (code bug): the response cache is dead code.  `executeRequest` reads
and writes the cache only for GET requests that pass a cache key; `scrape`,
`mapUrls` and `extract` compute cache keys but issue POST requests, and
`checkCrawlStatus` issues a GET but passes no cache key, so no operation ever
reads or writes the cache, and every call (the second of two identical
sequential `scrape` calls included) performs at least one network attempt.
The final conjunct runs two identical `scrape` calls against an
always-succeeding upstream: each makes exactly one network call and the
cache stays empty. -/
theorem cache_never_effective :
    (∀ cfg cache url options attempt,
        (Adapter14.scrape cfg cache url options attempt).cache = cache ∧
        1 ≤ (Adapter14.scrape cfg cache url options attempt).networkCalls)
    ∧ (∀ cfg cache url options attempt,
        (Adapter14.mapUrls cfg cache url options attempt).cache = cache ∧
        1 ≤ (Adapter14.mapUrls cfg cache url options attempt).networkCalls)
    ∧ (∀ cfg cache urls options attempt,
        (Adapter14.extract cfg cache urls options attempt).cache = cache ∧
        1 ≤ (Adapter14.extract cfg cache urls options attempt).networkCalls)
    ∧ (∀ cfg cache id options attempt,
        (Adapter14.checkCrawlStatus cfg cache id options attempt).cache = cache ∧
        1 ≤ (Adapter14.checkCrawlStatus cfg cache id options attempt).networkCalls)
    ∧ (∀ cfg cache url options attempt,
        (Adapter14.crawl cfg cache url options attempt).cache = cache ∧
        1 ≤ (Adapter14.crawl cfg cache url options attempt).networkCalls)
    ∧ (let att := fun _ : Nat => AttemptOutcome.ok (JVal.obj [("markdown", JVal.str "# Hi")])
       let r1 := Adapter14.scrape DEFAULT_RETRY_CONFIG [] "https://example.com" [] att
       let r2 := Adapter14.scrape DEFAULT_RETRY_CONFIG r1.cache "https://example.com" [] att
       r1.networkCalls = 1 ∧ r2.networkCalls = 1 ∧ r1.cache = [] ∧ r2.cache = []) := by
  refine ⟨?_, ?_, ?_, ?_, ?_, ?_⟩
  · intro cfg cache url options attempt
    exact executeRequest_post cfg cache _ attempt
  · intro cfg cache url options attempt
    exact executeRequest_post cfg cache _ attempt
  · intro cfg cache urls options attempt
    exact executeRequest_post cfg cache _ attempt
  · intro cfg cache id options attempt
    exact executeRequest_get_nokey cfg cache attempt
  · intro cfg cache url options attempt
    exact executeRequest_post cfg cache _ attempt
  · simp only [Adapter14.scrape, executeRequest, retryLoop,
      if_neg (by decide : ¬("POST" : String) = "GET")]
    exact ⟨trivial, trivial, trivial, trivial⟩

/-- C3 witness: the default configuration with an always-failing SERVER
error makes 4 attempts and waits 1000, 2000, 4000 ms. -/
theorem retry_backoff_bound_witness :
    retryLoop DEFAULT_RETRY_CONFIG
        (fun _ => .c4aiFail ⟨"Server error: boom", .SERVER, some 500, true⟩) 0 =
      (.error (.c4ai ⟨"Server error: boom", .SERVER, some 500, true⟩), 4, [1000, 2000, 4000]) := by
  rw [retry_backoff_bound.1 DEFAULT_RETRY_CONFIG ⟨"Server error: boom", .SERVER, some 500, true⟩
    rfl rfl]
  rfl

end Adapter14

namespace ErrorUtils

theorem transformError_isError_message (e : JSErr) (he : e.isError = true) (c : String) :
    (transformError e c).message = ctxPart c ++ e.message := by
  unfold transformError
  rw [if_pos he]
  split <;> rfl

end ErrorUtils

namespace AdapterMain

/-- C6: with a failing upstream, `deepResearch` resolves with a structured
`{query, success: false, results: {summary: '', sources: []}, error}`
payload, while `scrape`, `mapUrls`, `crawl`, `extract`, `search` and
`checkCrawlStatus` all reject with the transformed error. -/
theorem deepResearch_swallows_errors_others_reject :
    ∀ (e : JSErr) (query url jobId : String) (urls : List String)
      (options : List (String × JVal)),
      query ≠ "" → url ≠ "" → jobId ≠ "" → urls ≠ [] →
      (deepResearch (fun _ _ _ _ => .error e) query options =
        .ok (.obj [("query", .str query), ("success", .bool false),
                   ("results", .obj [("summary", .str ""), ("sources", .arr [])]),
                   ("error", .str ("Deep research failed: " ++
                     (ErrorUtils.transformError e
                       (requestContext "post" "/deep-research")).message))]))
      ∧ scrape (fun _ _ _ _ => .error e) url options =
          .error (.plain (ErrorUtils.transformError e
            (requestContext "post" "/scrape")).message)
      ∧ mapUrls (fun _ _ _ _ => .error e) url options =
          .error (.plain (ErrorUtils.transformError e
            (requestContext "post" "/map")).message)
      ∧ crawl (fun _ _ _ _ => .error e) url options =
          .error (.plain (ErrorUtils.transformError e
            (requestContext "post" "/crawl")).message)
      ∧ extract (fun _ _ _ _ => .error e) urls options =
          .error (.plain (ErrorUtils.transformError e
            (requestContext "post" "/extract")).message)
      ∧ search (fun _ _ _ _ => .error e) query options =
          .error (.plain (ErrorUtils.transformError e
            (requestContext "post" "/search")).message)
      ∧ checkCrawlStatus (fun _ _ _ _ => .error e) jobId options =
          .error (.plain (ErrorUtils.transformError e
            (requestContext "get" ("/crawl/" ++ jobId ++ "/status"))).message) := by
  intro e query url jobId urls options hq hu hj hus
  have hmsg : ∀ c : String,
      (ErrorUtils.transformError (plainJsError ((ErrorUtils.transformError e c).message))
        "Deep research failed").message =
      "Deep research failed: " ++ (ErrorUtils.transformError e c).message := by
    intro c
    rw [ErrorUtils.transformError_isError_message _ rfl]
    rfl
  refine ⟨?_, ?_, ?_, ?_, ?_, ?_, ?_⟩
  · simp only [deepResearch, if_neg hq, apiRequest]
    rw [hmsg]
  · simp only [scrape, if_neg hu, apiRequest]
  · simp only [mapUrls, if_neg hu, apiRequest]
  · simp only [crawl, if_neg hu, apiRequest]
  · cases urls with
    | nil => exact absurd rfl hus
    | cons u rest => simp only [extract, List.isEmpty_cons, apiRequest]; rfl
  · simp only [search, if_neg hq, apiRequest]
  · simp only [checkCrawlStatus, if_neg hj, apiRequest]

/-- C6 witness: the deepResearch conjunct at a concrete network failure. -/
theorem deepResearch_swallows_errors_witness :
    deepResearch (fun _ _ _ _ => .error { request := some "[object XMLHttpRequest]" })
        "quantum computing" [] =
      .ok (.obj [("query", .str "quantum computing"), ("success", .bool false),
                 ("results", .obj [("summary", .str ""), ("sources", .arr [])]),
                 ("error", .str ("Deep research failed: " ++
                   (ErrorUtils.transformError { request := some "[object XMLHttpRequest]" }
                     (requestContext "post" "/deep-research")).message))]) :=
  (deepResearch_swallows_errors_others_reject { request := some "[object XMLHttpRequest]" }
    "quantum computing" "https://example.com" "job-1" ["https://example.com"] []
    (by decide) (by decide) (by decide) (by simp)).1

/-- C10: calling `deepResearch` with an empty (falsy) query rejects with the
typed validation error before the error-swallowing `try` block is entered,
regardless of the upstream behaviour. -/
theorem deepResearch_empty_query_rejects (http : HttpLayer)
    (options : List (String × JVal)) :
    deepResearch http "" options =
      .error (.c4ai "Query is required for deep research" .VALIDATION) := by
  simp [deepResearch]

end AdapterMain

namespace FormatUtils

/-- The tail of the normalizer never returns an empty block list: nullish
payloads and primitives become exactly one block, and the handler-chain path
either keeps a handler's non-empty result or falls back to one JSON block. -/
theorem formatContentRest_ne_nil (v : JVal) (bs : List JVal)
    (h : formatContentRest v = Except.ok bs) : bs ≠ [] := by
  intro hn
  subst hn
  cases v <;> simp only [formatContentRest] at h
  case arr items =>
    cases hr : runHandlers (JVal.arr items) handlersList <;> rw [hr] at h
    · cases h
    · split at h
      · simp_all
      · split at h <;> simp_all
  case obj fields =>
    cases hr : runHandlers (JVal.obj fields) handlersList <;> rw [hr] at h
    · cases h
    · split at h
      · simp_all
      · split at h <;> simp_all
  all_goals simp_all

/-- C4 counterexample: the normalizer is not total in the claimed sense.  The
empty array satisfies the already-in-MCP-format scan vacuously and is returned
as-is — an empty block list, no "at least one block"; an array with a
primitive element makes the `'type' in item` scan throw a `TypeError` (the JS
`in` operator rejects non-objects); and an object whose `results.sources`
array contains `null` makes the research handler throw at `s.url` — so
"never throws" fails as well. -/
theorem formatContent_not_total :
    formatContent (JVal.arr []) = Except.ok []
    ∧ formatContent (JVal.arr [JVal.num 1]) = Except.error ()
    ∧ formatContent (JVal.obj [("results", JVal.obj
        [("summary", JVal.str "s"), ("sources", JVal.arr [JVal.null])])])
      = Except.error () := by
  refine ⟨rfl, rfl, rfl⟩

/-- C4 (amended): whenever `formatContent` returns without throwing, the
returned block list is non-empty — except for the single pass-through case of
the empty array, which satisfies the MCP-format scan vacuously and is returned
unchanged.  (It can throw: the `in`-operator scan and the listing handlers
raise `TypeError` on primitive or nullish elements.) -/
theorem formatContent_totality (v : JVal) (bs : List JVal)
    (h : formatContent v = Except.ok bs) : bs ≠ [] ∨ v = JVal.arr [] := by
  cases v with
  | arr items =>
    simp only [formatContent] at h
    cases hs : mcpScan items <;> rw [hs] at h
    · cases h
    · rename_i b
      cases b
      · exact Or.inl (formatContentRest_ne_nil _ _ h)
      · have h2 : Except.ok (ε := Unit) items = Except.ok bs := h
        injection h2 with h3
        subst h3
        cases items with
        | nil => exact Or.inr rfl
        | cons x xs => exact Or.inl (by simp)
  | null => exact Or.inl (formatContentRest_ne_nil JVal.null bs h)
  | undef => exact Or.inl (formatContentRest_ne_nil JVal.undef bs h)
  | bool b => exact Or.inl (formatContentRest_ne_nil (JVal.bool b) bs h)
  | num n => exact Or.inl (formatContentRest_ne_nil (JVal.num n) bs h)
  | str s => exact Or.inl (formatContentRest_ne_nil (JVal.str s) bs h)
  | obj fields => exact Or.inl (formatContentRest_ne_nil (JVal.obj fields) bs h)

/-- C4 witness: the amended totality theorem applied to the string payload
`"hi"`, which normalizes to exactly one text block. -/
theorem formatContent_totality_witness :
    ([textBlock (JVal.str "hi")] ≠ ([] : List JVal)) ∨ JVal.str "hi" = JVal.arr [] :=
  formatContent_totality (JVal.str "hi") [textBlock (JVal.str "hi")] rfl

/-- `s || b` keeps a non-empty string `s`. -/
theorem jsOr_str_truthy (s : String) (h : s ≠ "") (b : JVal) :
    jsOr (JVal.str s) b = JVal.str s := by
  simp [jsOr, truthy, h]

/-- `s || ''` is `s` for every string `s`. -/
theorem jsOr_str_empty (s : String) : jsOr (JVal.str s) (JVal.str "") = JVal.str s := by
  by_cases h : s = ""
  · subst h; rfl
  · exact jsOr_str_truthy s h _

/-- The error listing of `handleCrawlStatus` renders every error object
`{url, message}` (with a non-empty message) as its own `- url: message`
line. -/
theorem mapExcept_renderCrawlError (ps : List (String × String))
    (hmsg : ∀ p ∈ ps, p.2 ≠ "") :
    mapExcept renderCrawlError
        (ps.map fun p => JVal.obj [("url", JVal.str p.1), ("message", JVal.str p.2)])
      = Except.ok (ps.map fun p => "- " ++ p.1 ++ ": " ++ p.2) := by
  induction ps with
  | nil => rfl
  | cons p rest ih =>
    have hp : p.2 ≠ "" := hmsg p (by simp)
    have hrest : ∀ q ∈ rest, q.2 ≠ "" := fun q hq => hmsg q (by simp [hq])
    have hrender :
        renderCrawlError (JVal.obj [("url", JVal.str p.1), ("message", JVal.str p.2)])
          = Except.ok ("- " ++ p.1 ++ ": " ++ p.2) := by
      have e1 : renderCrawlError (JVal.obj [("url", JVal.str p.1), ("message", JVal.str p.2)])
          = Except.ok ("- "
              ++ jsString (jsOr (JVal.str p.1) (JVal.str ""))
              ++ ": " ++ jsString (jsOr (JVal.str p.2)
                  (jsOr JVal.undef (JVal.str "Unknown error")))) := rfl
      rw [e1, jsOr_str_empty, jsOr_str_truthy p.2 hp]
      simp [jsString]
    simp only [List.map_cons, mapExcept, hrender, ih hrest]

/-- C7 counterexample: a status payload with 11 crawled URLs and 6 errors —
past any claimed preview bound (the sibling handler in
crawl4ai-check-crawl-status-handler.ts caps at 10 URLs and 5 errors) — is
normalized by the cited `handleCrawlStatus` to listings that enumerate every
entry, and no listing carries a "more" truncation suffix. -/
theorem handleCrawlStatus_no_preview_cap :
    handleCrawlStatus (JVal.obj [("id", JVal.str "job-1"), ("status", JVal.str "completed"),
        ("urls", JVal.arr [JVal.str "u1", JVal.str "u2", JVal.str "u3", JVal.str "u4",
          JVal.str "u5", JVal.str "u6", JVal.str "u7", JVal.str "u8", JVal.str "u9",
          JVal.str "u10", JVal.str "u11"]),
        ("errors", JVal.arr [
          JVal.obj [("url", JVal.str "e1"), ("message", JVal.str "m1")],
          JVal.obj [("url", JVal.str "e2"), ("message", JVal.str "m2")],
          JVal.obj [("url", JVal.str "e3"), ("message", JVal.str "m3")],
          JVal.obj [("url", JVal.str "e4"), ("message", JVal.str "m4")],
          JVal.obj [("url", JVal.str "e5"), ("message", JVal.str "m5")],
          JVal.obj [("url", JVal.str "e6"), ("message", JVal.str "m6")]])])
      = Except.ok [
          textBlock (JVal.str "Crawl Job: job-1\nStatus: completed\nProgress: unknown"),
          textBlock (JVal.str
            "\nCrawled URLs:\n- u1\n- u2\n- u3\n- u4\n- u5\n- u6\n- u7\n- u8\n- u9\n- u10\n- u11"),
          textBlock (JVal.str
            "\nErrors:\n- e1: m1\n- e2: m2\n- e3: m3\n- e4: m4\n- e5: m5\n- e6: m6")]
    ∧ strContains
        "\nCrawled URLs:\n- u1\n- u2\n- u3\n- u4\n- u5\n- u6\n- u7\n- u8\n- u9\n- u10\n- u11"
        "more" = false
    ∧ strContains "\nErrors:\n- e1: m1\n- e2: m2\n- e3: m3\n- e4: m4\n- e5: m5\n- e6: m6"
        "more" = false := by
  refine ⟨?_, by decide, by decide⟩
  simp [handleCrawlStatus, getField, List.lookup, truthy, isUndef, jsString, jsOr,
    mapExcept, renderCrawlError, textBlock, mkBlock]
  exact ⟨rfl, rfl⟩

/-- C7 (amended): on every status payload with a non-empty id, a present
status, a non-empty `urls` array of strings and a non-empty `errors` array of
`{url, message}` objects with non-empty messages, `handleCrawlStatus` emits a
status summary block, one block listing every crawled URL, and one block
listing every error — complete listings, with no preview cap and no
truncation suffix. -/
theorem handleCrawlStatus_lists_everything (i st : String) (us : List String)
    (ps : List (String × String)) (hi : i ≠ "") (hus : us ≠ []) (hps : ps ≠ [])
    (hmsg : ∀ p ∈ ps, p.2 ≠ "") :
    handleCrawlStatus (JVal.obj [("id", JVal.str i), ("status", JVal.str st),
        ("urls", JVal.arr (us.map JVal.str)),
        ("errors", JVal.arr (ps.map fun p =>
          JVal.obj [("url", JVal.str p.1), ("message", JVal.str p.2)]))])
      = Except.ok [
          textBlock (JVal.str ("Crawl Job: " ++ i ++ "\nStatus: " ++ st
            ++ "\nProgress: " ++ "unknown")),
          textBlock (JVal.str ("\nCrawled URLs:\n"
            ++ String.intercalate "\n" (us.map fun u => "- " ++ u))),
          textBlock (JVal.str ("\nErrors:\n"
            ++ String.intercalate "\n" (ps.map fun p => "- " ++ p.1 ++ ": " ++ p.2)))] := by
  simp [handleCrawlStatus, getField, List.lookup, truthy, isUndef, jsString, hi, hus, hps,
    mapExcept_renderCrawlError ps hmsg, textBlock, mkBlock, List.length_pos, Function.comp_def]

/-- C7 witness: the amended theorem applied to a one-URL, one-error status
payload. -/
theorem handleCrawlStatus_lists_everything_witness :
    handleCrawlStatus (JVal.obj [("id", JVal.str "j"), ("status", JVal.str "ok"),
        ("urls", JVal.arr [JVal.str "a"]),
        ("errors", JVal.arr [JVal.obj [("url", JVal.str "b"), ("message", JVal.str "m")]])])
      = Except.ok [
          textBlock (JVal.str "Crawl Job: j\nStatus: ok\nProgress: unknown"),
          textBlock (JVal.str "\nCrawled URLs:\n- a"),
          textBlock (JVal.str "\nErrors:\n- b: m")] :=
  handleCrawlStatus_lists_everything "j" "ok" ["a"] [("b", "m")]
    (by decide) (by decide) (by decide) (by decide)

end FormatUtils

/-- C2 counterexample: the adapter's classifier
(`transformError` in src/utils/error-utils.ts) maps a 429 response and a 500
response both to the catch-all `API` kind — its `ErrorType` has no
RATE_LIMIT, SERVER or CLIENT members and its `FormattedError` carries no
retryability verdict at all; an `Error` instance carrying a 400 response (as
real axios errors are, since `AxiosError extends Error`) lands in the
`instanceof Error` branch checked first and comes out `UNKNOWN`, not
`VALIDATION`; and the part_014 response interceptor maps 400 to `CLIENT`
(claim: VALIDATION), 404 and 505 to `UNKNOWN` non-retryable (claim: CLIENT
resp. SERVER retryable). -/
theorem error_classification_counterexample :
    (ErrorUtils.transformError
        { response := some (429, .obj [("error", .str "rate limited")]) } "ctx").type
      = .API
    ∧ (ErrorUtils.transformError { response := some (500, .obj []) } "ctx").type = .API
    ∧ (ErrorUtils.transformError
        { isError := true, message := "Request failed with status code 400",
          response := some (400, .obj []) } "ctx").type = .UNKNOWN
    ∧ (Adapter14.interceptError (some (400, .obj [])) "msg").type = .CLIENT
    ∧ (Adapter14.interceptError (some (404, .obj [])) "msg").type = .UNKNOWN
    ∧ (Adapter14.interceptError (some (505, .obj [])) "msg").type = .UNKNOWN
    ∧ (Adapter14.interceptError (some (505, .obj [])) "msg").retryable = false := by
  refine ⟨rfl, rfl, rfl, rfl, rfl, rfl, rfl⟩

/-- C2 (amended): the decision tables the code actually implements.  The
adapter's classifier checks `instanceof Error` first (TIMEOUT when the
message mentions timeout or network, else UNKNOWN), then response-carrying
values by status (401/403 → AUTH, 400/422 → VALIDATION, every other status →
API), then a sent request without response (NETWORK), else UNKNOWN — with no
retryability verdict anywhere.  The part_014 interceptor classifies: no
response → NETWORK retryable; 401/403 → AUTHENTICATION; 429 → RATE_LIMIT
retryable; 400/422 → CLIENT; exactly 500/502/503/504 → SERVER retryable;
every other status (404 and 505 included) → UNKNOWN non-retryable. -/
theorem error_classification_tables :
    (∀ (e : JSErr) (c : String), e.isError = true →
        (strContains e.message "timeout" || strContains e.message "network") = true →
        (ErrorUtils.transformError e c).type = .TIMEOUT)
    ∧ (∀ (e : JSErr) (c : String), e.isError = true →
        (strContains e.message "timeout" || strContains e.message "network") = false →
        (ErrorUtils.transformError e c).type = .UNKNOWN)
    ∧ (∀ (e : JSErr) (c : String) (status : Int) (data : JVal),
        e.isError = false → e.response = some (status, data) →
        (ErrorUtils.transformError e c).type =
          (if status = 401 ∨ status = 403 then .AUTH
           else if status = 400 ∨ status = 422 then .VALIDATION
           else .API))
    ∧ (∀ (e : JSErr) (c : String) (r : String), e.isError = false → e.response = none →
        e.request = some r → (ErrorUtils.transformError e c).type = .NETWORK)
    ∧ (∀ (e : JSErr) (c : String), e.isError = false → e.response = none →
        e.request = none → (ErrorUtils.transformError e c).type = .UNKNOWN)
    ∧ (∀ m, Adapter14.interceptError none m =
        { message := "Network error: Unable to connect to the Crawl4AI API"
          type := .NETWORK, retryable := true })
    ∧ (∀ (status : Int) (data : JVal) (m : String),
        (Adapter14.interceptError (some (status, data)) m).type =
          (if status = 401 ∨ status = 403 then .AUTHENTICATION
           else if status = 429 then .RATE_LIMIT
           else if status = 400 ∨ status = 422 then .CLIENT
           else if status = 500 ∨ status = 502 ∨ status = 503 ∨ status = 504 then .SERVER
           else .UNKNOWN))
    ∧ (∀ (status : Int) (data : JVal) (m : String),
        (Adapter14.interceptError (some (status, data)) m).retryable = true ↔
          (status = 429 ∨ status = 500 ∨ status = 502 ∨ status = 503 ∨ status = 504)) := by
  refine ⟨?_, ?_, ?_, ?_, ?_, ?_, ?_, ?_⟩
  · intro e c he hm
    unfold ErrorUtils.transformError
    rw [if_pos he, if_pos hm]
  · intro e c he hm
    unfold ErrorUtils.transformError
    rw [if_pos he, if_neg (by simp [hm])]
  · intro e c status data he hr
    unfold ErrorUtils.transformError
    rw [if_neg (by simp [he]), hr]
  · intro e c r he hr hq
    unfold ErrorUtils.transformError
    rw [if_neg (by simp [he]), hr, hq]
  · intro e c he hr hq
    unfold ErrorUtils.transformError
    rw [if_neg (by simp [he]), hr, hq]
  · intro m
    rfl
  · intro status data m
    unfold Adapter14.interceptError
    dsimp only
    split_ifs <;> rfl
  · intro status data m
    unfold Adapter14.interceptError
    dsimp only
    split_ifs with h1 h2 h3 h4 <;> simp <;> omega

/-- C2 witness: the response-status conjunct of the amended tables at a
concrete 404 response. -/
theorem error_classification_tables_witness :
    (ErrorUtils.transformError { response := some (404, JVal.obj []) } "ctx").type =
      (if (404 : Int) = 401 ∨ (404 : Int) = 403 then ErrorUtils.ErrorType.AUTH
       else if (404 : Int) = 400 ∨ (404 : Int) = 422 then ErrorUtils.ErrorType.VALIDATION
       else ErrorUtils.ErrorType.API) :=
  error_classification_tables.2.2.1 { response := some (404, JVal.obj []) } "ctx" 404
    (JVal.obj []) rfl rfl

/-- C5 counterexample: the adapter's classifier (src/utils/error-utils.ts)
takes no execution mode into account; its `details` always carry the raw
payload — the stack trace of an `Error` instance, and the full serialized
response body of an HTTP failure — so in a production execution they are not
replaced by any status-only string. -/
theorem error_details_carry_raw_payload :
    (ErrorUtils.transformError
        { isError := true, message := "boom",
          stack := some "    at Object.fn (src/adapter.ts:42:7)" } "ctx").details
      = some "    at Object.fn (src/adapter.ts:42:7)"
    ∧ (ErrorUtils.transformError
        { response := some (500, .obj [("secret", .str "s3cr3t")]) } "ctx").details
      = some "\x7b\"secret\":\"s3cr3t\"\x7d" := by
  constructor
  · rfl
  · unfold ErrorUtils.transformError
    simp only [jsonStringify, jsonRender, jsonRenderFields, jsonRenderItems, isUndef,
      jsonQuote, jsonEscapeChar]
    rfl

/-- C5 (amended): the enhanced error-utils snapshot implements the duality —
in production mode `details` equal `specProdDetails` (fixed redaction strings
or a status-only string, never the raw payload), in development mode they
equal `specDevDetails` (the raw stack, serialized body, or request
rendering); the adapter's own classifier in src/utils/error-utils.ts
instead attaches the raw stack as `details` for every `Error` instance,
with no mode dependence. -/
theorem error_details_mode_duality :
    (∀ (e : JSErr) (c : String),
        (ErrorUtilsEnhanced.transformError true e c).details =
          ErrorUtilsEnhanced.specProdDetails e)
    ∧ (∀ (e : JSErr) (c : String),
        (ErrorUtilsEnhanced.transformError false e c).details =
          ErrorUtilsEnhanced.specDevDetails e)
    ∧ (∀ (e : JSErr) (c : String), e.isError = true →
        (ErrorUtils.transformError e c).details = e.stack) := by
  refine ⟨?_, ?_, ?_⟩
  · intro e c
    unfold ErrorUtilsEnhanced.transformError ErrorUtilsEnhanced.specProdDetails
    by_cases he : e.isError
    · rw [if_pos he, if_pos he]
      split_ifs <;> first | rfl | simp_all
    · rw [if_neg he, if_neg he]
      by_cases ha : e.isAxiosError
      · rw [if_pos ha, if_pos ha]
        rcases e.response with _ | ⟨status, data⟩
        · rcases e.request with _ | r <;> rfl
        · rfl
      · rw [if_neg ha, if_neg ha]
  · intro e c
    unfold ErrorUtilsEnhanced.transformError ErrorUtilsEnhanced.specDevDetails
    by_cases he : e.isError
    · rw [if_pos he, if_pos he]
      split_ifs <;> first | rfl | simp_all
    · rw [if_neg he, if_neg he]
      by_cases ha : e.isAxiosError
      · rw [if_pos ha, if_pos ha]
        rcases e.response with _ | ⟨status, data⟩
        · rcases e.request with _ | r <;> rfl
        · rfl
      · rw [if_neg ha, if_neg ha]
  · intro e c he
    unfold ErrorUtils.transformError
    rw [if_pos he]
    split_ifs <;> rfl

/-- C5 witness: the raw-stack conjunct at a concrete `Error` instance, and
the duality conjuncts at the same failure in both modes. -/
theorem error_details_mode_duality_witness :
    (ErrorUtils.transformError
        { isError := true, message := "kaput", stack := some "trace-line" } "c").details
      = some "trace-line" :=
  error_details_mode_duality.2.2
    { isError := true, message := "kaput", stack := some "trace-line" } "c" rfl

end Crawl4AI
